import Mathlib

/-!
Verification of the synthetic supply-chain data generator
(`utils/generate_synthetic_data.py`).

The generator is embedded shallowly: the process-global Python RNG is
modelled as an explicit state (`RNG`) holding an arbitrary stream of
natural numbers together with a position; every random primitive of the
source (`random.randint`, `random.random`, `random.choice`,
`random.choices`, `random.uniform`) consumes one stream value and
advances the position.  `random.random()` is modelled as a rational
`k / 100`: every probability threshold appearing in the source is a
multiple of 1/100, so this discretisation decides each comparison
exactly as the source does.  Counts are `Int` (Python ints); a loop
`for i in range(n)` iterates `n.toNat` times, matching Python's `range`
on negative arguments.  `random.choice` on a possibly-empty list is
fallible and returns `Option`; generators whose list arguments may be
empty are therefore `Option`-valued.
-/

/-- State of the process-global random generator: an abstract stream of
draws plus the current position. -/
structure RNG where
  vals : Nat → Nat
  pos : Nat

/-- Consume one raw draw from the stream. -/
def RNG.next (r : RNG) : Nat × RNG :=
  (r.vals r.pos, { r with pos := r.pos + 1 })

/-- `random.randint(lo, hi)`: uniform integer in `[lo, hi]`. -/
def pyRandInt (lo hi : Nat) (r : RNG) : Nat × RNG :=
  let (k, r') := r.next
  (lo + k % (hi - lo + 1), r')

/-- `random.random()`: a uniform rational in `[0, 1)`, discretised to
hundredths (all thresholds in the source are multiples of 1/100). -/
def randFloat (r : RNG) : ℚ × RNG :=
  let (k, r') := r.next
  (((k % 100 : ℕ) : ℚ) / 100, r')

/-- `random.uniform(a, b)`. -/
def uniformQ (a b : ℚ) (r : RNG) : ℚ × RNG :=
  let (q, r') := randFloat r
  (a + (b - a) * q, r')

/-- Python `round(x, 2)`. -/
def round2 (q : ℚ) : ℚ :=
  ((⌊q * 100 + 1 / 2⌋ : ℤ) : ℚ) / 100

/-- `random.choice(l)` on a list known to be handled totally in the
source (the source only reaches it with a nonempty list); picks a
uniform index, returning `d` on the empty list. -/
def choiceD {α : Type} (d : α) (l : List α) (r : RNG) : α × RNG :=
  let (k, r') := r.next
  (l.getD (k % l.length) d, r')

/-- `random.choice(l)` in contexts where `l` may be empty: Python would
raise `IndexError`, modelled as `none`. -/
def choiceO {α : Type} (l : List α) (r : RNG) : Option (α × RNG) :=
  let (k, r') := r.next
  match l with
  | [] => none
  | a :: t => some ((a :: t).getD (k % (a :: t).length) a, r')

/-! ### Decimal rendering of naturals (Python f-string interpolation) -/

/-- The decimal digit character for `n < 10`. -/
def digitCh (n : Nat) : Char :=
  match n with
  | 0 => '0' | 1 => '1' | 2 => '2' | 3 => '3' | 4 => '4'
  | 5 => '5' | 6 => '6' | 7 => '7' | 8 => '8' | 9 => '9'
  | _ => '0'

/-- Decimal rendering of a natural number as a character list, as
produced by Python string interpolation of an `int`. -/
def natChars (n : Nat) : List Char :=
  if _h : n < 10 then [digitCh n]
  else natChars (n / 10) ++ [digitCh (n % 10)]
termination_by n
decreasing_by exact Nat.div_lt_self (by omega) (by omega)

/-- Numeric value of a digit character. -/
def chVal (c : Char) : Nat := c.toNat - 48

/-- Parse a character list as a decimal numeral. -/
def parseChars (l : List Char) : Nat :=
  l.foldl (fun a c => a * 10 + chVal c) 0

theorem chVal_digitCh (m : Nat) (h : m < 10) : chVal (digitCh m) = m := by
  interval_cases m <;> rfl

theorem digitCh_isDigit (m : Nat) (h : m < 10) : (digitCh m).isDigit = true := by
  interval_cases m <;> rfl

theorem parseChars_append_one (l : List Char) (c : Char) :
    parseChars (l ++ [c]) = parseChars l * 10 + chVal c := by
  simp [parseChars, List.foldl_append]

theorem parseChars_natChars (n : Nat) : parseChars (natChars n) = n := by
  induction n using Nat.strong_induction_on with
  | _ n ih =>
    rw [natChars]
    split
    · simp [parseChars, chVal_digitCh n (by omega)]
    · rw [parseChars_append_one, ih (n / 10) (Nat.div_lt_self (by omega) (by omega)),
        chVal_digitCh (n % 10) (Nat.mod_lt _ (by omega))]
      omega

theorem natChars_inj {a b : Nat} (h : natChars a = natChars b) : a = b := by
  have := parseChars_natChars a
  rw [h, parseChars_natChars] at this
  omega

theorem natChars_ne_nil (n : Nat) : natChars n ≠ [] := by
  rw [natChars]
  split
  · simp
  · simp

theorem natChars_digits (n : Nat) : ∀ c ∈ natChars n, c.isDigit = true := by
  induction n using Nat.strong_induction_on with
  | _ n ih =>
    rw [natChars]
    split
    · intro c hc
      simp only [List.mem_singleton] at hc
      subst hc
      exact digitCh_isDigit n (by omega)
    · intro c hc
      rcases List.mem_append.mp hc with h1 | h2
      · exact ih (n / 10) (Nat.div_lt_self (by omega) (by omega)) c h1
      · simp only [List.mem_singleton] at h2
        subst h2
        exact digitCh_isDigit (n % 10) (Nat.mod_lt _ (by omega))

/-! ### Small list lemmas -/

theorem getD_mem_of_lt {α : Type} :
    ∀ (l : List α) (n : Nat) (d : α), n < l.length → l.getD n d ∈ l := by
  intro l
  induction l with
  | nil => intro n d h; simp at h
  | cons a t ih =>
    intro n d h
    cases n with
    | zero => simp [List.getD]
    | succ m =>
      have : m < t.length := by simpa using h
      simpa [List.getD] using Or.inr (ih m d this)

theorem getD_mod_mem {α : Type} (l : List α) (k : Nat) (d : α) (h : l ≠ []) :
    l.getD (k % l.length) d ∈ l := by
  have hl : 0 < l.length := List.length_pos.mpr h
  exact getD_mem_of_lt l _ d (Nat.mod_lt _ hl)

theorem choiceD_mem {α : Type} (d : α) (l : List α) (r : RNG) (h : l ≠ []) :
    (choiceD d l r).1 ∈ l := by
  simp only [choiceD, RNG.next]
  exact getD_mod_mem l _ d h

theorem choiceO_eq_some {α : Type} (a : α) (t : List α) (r : RNG) :
    choiceO (a :: t) r
      = some ((a :: t).getD ((r.next).1 % (a :: t).length) a, (r.next).2) := rfl

theorem choiceO_ne_none {α : Type} (l : List α) (r : RNG) (h : l ≠ []) :
    choiceO l r ≠ none := by
  cases l with
  | nil => exact absurd rfl h
  | cons a t => rw [choiceO_eq_some]; exact Option.some_ne_none _

theorem choiceO_mem {α : Type} {l : List α} {r : RNG} {a : α} {r' : RNG}
    (h : choiceO l r = some (a, r')) : a ∈ l := by
  cases l with
  | nil => simp [choiceO] at h
  | cons b t =>
    rw [choiceO_eq_some] at h
    have hv : (b :: t).getD ((r.next).1 % (b :: t).length) b = a := by
      simpa using congrArg (fun p => p.1) (Option.some.inj h)
    rw [← hv]
    exact getD_mod_mem (b :: t) _ _ (by simp)

theorem map_range_getD {α : Type} (d : α) :
    ∀ l : List α, (List.range l.length).map (fun i => l.getD i d) = l := by
  intro l
  induction l with
  | nil => simp
  | cons a t ih =>
    have h1 : List.range (t.length + 1) = 0 :: (List.range t.length).map Nat.succ :=
      List.range_succ_eq_map t.length
    simp only [List.length_cons, h1, List.map_cons, List.map_map]
    show a :: List.map (fun i => t.getD i d) (List.range t.length) = a :: t
    rw [ih]

theorem sum_map_ite_one_zero {α : Type} (p : α → Bool) :
    ∀ l : List α, (l.map (fun x => if p x then 1 else 0)).sum = l.countP p := by
  intro l
  induction l with
  | nil => simp
  | cons a t ih =>
    by_cases h : p a <;> simp [List.countP_cons, h, ih, Nat.add_comm]

theorem sum_range_if_getD {α : Type} (l : List α) (p : α → Bool) (d : α) :
    ((List.range l.length).map (fun v => if p (l.getD v d) then 1 else 0)).sum
      = l.countP p := by
  have h1 : (fun v => if p (l.getD v d) then (1 : ℕ) else 0)
      = (fun x => if p x then (1 : ℕ) else 0) ∘ (fun i => l.getD i d) := rfl
  rw [h1, ← List.map_map, map_range_getD, sum_map_ite_one_zero]

theorem sum_map_const_range (n c : ℕ) :
    ((List.range n).map (fun _ => c)).sum = n * c := by
  induction n with
  | zero => simp
  | succ m ih => simp [List.range_succ, ih, Nat.succ_mul]

theorem sum_range_split (a b A B : ℕ) :
    ((List.range (a + b)).map (fun k => if k < a then A else B)).sum
      = a * A + b * B := by
  rw [List.range_add, List.map_append, List.sum_append]
  have h1 : (List.range a).map (fun k => if k < a then A else B)
      = (List.range a).map (fun _ => A) := by
    apply List.map_congr_left
    intro k hk
    simp [List.mem_range.mp hk]
  have h2 : ((List.range b).map fun x => a + x).map (fun k => if k < a then A else B)
      = (List.range b).map (fun _ => B) := by
    rw [List.map_map]
    apply List.map_congr_left
    intro k _
    simp
  rw [h1, h2, sum_map_const_range, sum_map_const_range]

theorem takeWhile_all_append {p : Char → Bool} :
    ∀ (l : List Char) (x : Char) (r : List Char), (∀ a ∈ l, p a = true) → p x = false →
      List.takeWhile p (l ++ x :: r) = l := by
  intro l
  induction l with
  | nil =>
    intro x r _ hx
    simp [List.takeWhile, hx]
  | cons a t ih =>
    intro x r hall hx
    have ha : p a = true := hall a (by simp)
    simp only [List.cons_append, List.takeWhile]
    rw [ha]
    simp only [List.cons.injEq, true_and]
    exact ih x r (fun b hb => hall b (by simp [hb])) hx

/-! ### Strings: data of append, lowercase, substring test -/

theorem strData_append (a b : String) : (a ++ b).data = a.data ++ b.data := by
  cases a
  cases b
  rfl

/-- Lowercasing, as Python `str.lower()` on the ASCII names used here. -/
def lowerStr (s : String) : String := ⟨s.data.map Char.toLower⟩

/-- `sub.isPrefixOf hay` on character lists (helper for the substring test). -/
def charsPre : List Char → List Char → Bool
  | [], _ => true
  | _ :: _, [] => false
  | c :: cs, d :: ds => c == d && charsPre cs ds

/-- Python's `sub in hay` substring test on character lists. -/
def hasSub : List Char → List Char → Bool
  | [], sub => sub == []
  | c :: t, sub => charsPre sub (c :: t) || hasSub t sub

/-- The trailing run of decimal digits of a name, read right to left;
fallback vendor names (`"{Category} Corp {n}"`) are characterised by it. -/
def digitTail (l : List Char) : List Char :=
  List.takeWhile Char.isDigit l.reverse

theorem digitTail_append_natChars (pre : List Char) (m : Nat)
    (h : pre.reverse.head? = some ' ') :
    digitTail (pre ++ natChars m) = (natChars m).reverse := by
  unfold digitTail
  cases hrev : pre.reverse with
  | nil => rw [hrev] at h; simp at h
  | cons x t =>
    rw [hrev] at h
    have hx : x = ' ' := by simpa using h
    subst hx
    rw [List.reverse_append, hrev]
    apply takeWhile_all_append
    · intro a ha
      exact natChars_digits m a (List.mem_reverse.mp ha)
    · rfl

/-! ### Configuration constants of the generator -/

/-- One entry of the `REGIONS` table: display name, sampling weight,
representative cities. -/
structure RegionSpec where
  displayName : String
  weight : ℚ
  cities : List String

/-- The `REGIONS` configuration table (ISO 3166-1 alpha-3 keys). -/
def REGIONS : List (String × RegionSpec) :=
  [("CHN", ⟨"China", 15 / 100, ["Shanghai", "Shenzhen", "Beijing", "Guangzhou"]⟩),
   ("KOR", ⟨"South Korea", 15 / 100, ["Seoul", "Busan", "Ulsan", "Daegu"]⟩),
   ("JPN", ⟨"Japan", 10 / 100, ["Tokyo", "Osaka", "Nagoya", "Yokohama"]⟩),
   ("USA", ⟨"United States", 20 / 100, ["Charlotte", "Detroit", "Houston", "Phoenix"]⟩),
   ("MEX", ⟨"Mexico", 10 / 100, ["Monterrey", "Mexico City", "Guadalajara", "Tijuana"]⟩),
   ("DEU", ⟨"Germany", 10 / 100, ["Munich", "Stuttgart", "Frankfurt", "Berlin"]⟩),
   ("CHL", ⟨"Chile", 10 / 100, ["Santiago", "Antofagasta", "Valparaiso", "Concepcion"]⟩),
   ("AUS", ⟨"Australia", 5 / 100, ["Perth", "Sydney", "Melbourne", "Brisbane"]⟩),
   ("COD", ⟨"DR Congo", 5 / 100, ["Lubumbashi", "Kolwezi", "Kinshasa", "Likasi"]⟩)]

/-- One entry of the `REGION_RISKS` table. -/
structure RiskSpec where
  base : ℚ
  geopolitical : ℚ
  natural : ℚ
  infrastructure : ℚ

/-- The `REGION_RISKS` configuration table. -/
def REGION_RISKS : List (String × RiskSpec) :=
  [("CHN", ⟨3 / 10, 5 / 10, 2 / 10, 7 / 10⟩),
   ("KOR", ⟨2 / 10, 3 / 10, 3 / 10, 9 / 10⟩),
   ("JPN", ⟨2 / 10, 1 / 10, 5 / 10, 95 / 100⟩),
   ("USA", ⟨1 / 10, 1 / 10, 2 / 10, 9 / 10⟩),
   ("MEX", ⟨3 / 10, 2 / 10, 3 / 10, 6 / 10⟩),
   ("DEU", ⟨1 / 10, 1 / 10, 1 / 10, 95 / 100⟩),
   ("CHL", ⟨4 / 10, 2 / 10, 6 / 10, 7 / 10⟩),
   ("AUS", ⟨2 / 10, 1 / 10, 3 / 10, 85 / 100⟩),
   ("COD", ⟨7 / 10, 8 / 10, 3 / 10, 3 / 10⟩)]

/-- The `HS_CODES` lookup table. -/
def HS_CODES : List (String × String) :=
  [("2836.91", "Lithium Carbonate"),
   ("2825.20", "Lithium Hydroxide"),
   ("8106.00", "Cobalt and Cobalt Products"),
   ("7408.11", "Copper Wire"),
   ("7409.11", "Copper Plates"),
   ("8507.60", "Lithium-ion Batteries"),
   ("8541.40", "Semiconductor Devices"),
   ("3904.10", "PVC Compounds"),
   ("7601.10", "Aluminum Unwrought")]

/-- `company_templates.get(category, company_templates["generic"])`:
the per-category vendor-name pools, with the generic pool as default. -/
def companyTemplates (c : String) : List String :=
  if c = "battery" then
    ["Samsung SDI Co.", "LG Energy Solution", "CATL", "BYD Battery",
     "Panasonic Energy", "SK On", "AESC", "CALB", "EVE Energy",
     "Gotion High-Tech", "Farasis Energy", "Svolt Energy"]
  else if c = "lithium" then
    ["Albemarle Corp", "SQM Mining", "Livent Corp", "Ganfeng Lithium",
     "Tianqi Lithium", "Pilbara Minerals", "Allkem Ltd", "Sigma Lithium"]
  else if c = "cobalt" then
    ["Glencore Cobalt", "Umicore SA", "Freeport Cobalt", "Chemaf SPRL",
     "ERG Africa", "Katanga Mining"]
  else if c = "copper" then
    ["Codelco", "Freeport-McMoRan", "BHP Copper", "Southern Copper",
     "Antofagasta PLC", "First Quantum"]
  else if c = "electronics" then
    ["Texas Instruments", "Infineon Technologies", "NXP Semiconductors",
     "STMicroelectronics", "Renesas Electronics", "ON Semiconductor"]
  else if c = "materials" then
    ["BASF Materials", "Umicore Materials", "Sumitomo Chemical",
     "Mitsubishi Chemical", "3M Advanced Materials", "DuPont Electronics"]
  else
    ["Alpha Industries", "Beta Components", "Gamma Manufacturing",
     "Delta Materials", "Epsilon Tech", "Zeta Precision", "Theta Systems"]

/-- The seven category keys that the vendor generator can select. -/
def categoryKeys : List String :=
  ["battery", "lithium", "cobalt", "copper", "electronics", "materials", "generic"]

/-- Union of all name pools (every name `random.choice` can draw). -/
def allPoolNames : List String :=
  companyTemplates "battery" ++ companyTemplates "lithium" ++ companyTemplates "cobalt"
    ++ companyTemplates "copper" ++ companyTemplates "electronics"
    ++ companyTemplates "materials" ++ companyTemplates "generic"

/-- Python `category.title()` on the seven category keys. -/
def titleCat (c : String) : String :=
  if c = "battery" then "Battery"
  else if c = "lithium" then "Lithium"
  else if c = "cobalt" then "Cobalt"
  else if c = "copper" then "Copper"
  else if c = "electronics" then "Electronics"
  else if c = "materials" then "Materials"
  else if c = "generic" then "Generic"
  else c

/-- The synthesized unique fallback vendor name `f"{category.title()} Corp {i+1}"`. -/
def fallbackName (c : String) (i : Nat) : String :=
  titleCat c ++ " Corp " ++ String.mk (natChars (i + 1))

/-- The `phone_prefixes` dialing-code table. -/
def phoneCodes : List (String × String) :=
  [("CHN", "+86"), ("KOR", "+82"), ("JPN", "+81"), ("USA", "+1"),
   ("MEX", "+52"), ("DEU", "+49"), ("CHL", "+56"), ("AUS", "+61"), ("COD", "+243")]

/-! ### Vendor generator -/

/-- A row of the vendor master. -/
structure Vendor where
  VENDOR_ID : String
  NAME : String
  COUNTRY_CODE : String
  CITY : String
  PHONE : String
  TIER : Nat
  FINANCIAL_HEALTH_SCORE : ℚ
deriving DecidableEq

/-- `random.choices(population, weights=w, k=1)[0]`: walk the cumulative
weights and return the first entry exceeding the scaled draw (the last
entry when the draw falls beyond every boundary). -/
def wchoice : List (String × ℚ) → ℚ → ℚ → String
  | [], _, _ => ""
  | [(s, _)], _, _ => s
  | (s, w) :: p :: rest, acc, x =>
    if x < acc + w then s else wchoice (p :: rest) (acc + w) x

/-- Weighted region selection over the `REGIONS` table. -/
def regionChoice (r : RNG) : String × RNG :=
  let pairs := REGIONS.map (fun p => (p.1, p.2.weight))
  let total := (pairs.map (fun p => p.2)).sum
  let (q, r') := randFloat r
  (wchoice pairs 0 (q * total), r')

/-- City list of a region. -/
def citiesOf (region : String) : List String :=
  ((REGIONS.lookup region).map (fun s => s.cities)).getD []

/-- The category-selection branch of the vendor generator: each region
test is evaluated in order and its probability draw happens only when
the region test passes, mirroring Python's short-circuit `and`. -/
def defaultCat (r : RNG) : String × RNG :=
  choiceD "materials" ["materials", "generic", "copper"] r

def categoryChoice (region : String) (r : RNG) : String × RNG :=
  if region = "CHL" ∨ region = "AUS" then
    let p := randFloat r
    if p.1 < 6 / 10 then ("lithium", p.2) else defaultCat p.2
  else if region = "COD" then
    let p := randFloat r
    if p.1 < 7 / 10 then ("cobalt", p.2) else defaultCat p.2
  else if region = "KOR" ∨ region = "CHN" ∨ region = "JPN" then
    let p := randFloat r
    if p.1 < 4 / 10 then ("battery", p.2) else defaultCat p.2
  else if region = "USA" ∨ region = "DEU" then
    let p := randFloat r
    if p.1 < 3 / 10 then ("electronics", p.2) else defaultCat p.2
  else defaultCat r

/-- The name-selection step: draw an unused pool name, or synthesize the
fallback name (no RNG draw in the fallback branch, as in the source). -/
def nameChoice (category : String) (used : List String) (i : Nat) (r : RNG) :
    String × RNG :=
  match (companyTemplates category).filter (fun n => decide (n ∉ used)) with
  | [] => (fallbackName category i, r)
  | a :: t => choiceD a (a :: t) r

/-- One iteration of the `generate_vendors` loop (loop index `i`).
Intermediate RNG states are threaded by explicit pair projections. -/
def vendorStep (i : Nat) (used : List String) (r : RNG) : Vendor × RNG :=
  let vendorId := "V" ++ String.mk (natChars (10001 + i))
  let p1 := regionChoice r
  let region := p1.1
  let p2 := choiceD "" (citiesOf region) p1.2
  let p3 := categoryChoice region p2.2
  let category := p3.1
  let p4 := nameChoice category used i p3.2
  let p5 := pyRandInt 100 999 p4.2
  let p6 := pyRandInt 100 999 p5.2
  let p7 := pyRandInt 1000 9999 p6.2
  let phone := (phoneCodes.lookup region).getD "" ++ "-" ++ String.mk (natChars p5.1)
    ++ "-" ++ String.mk (natChars p6.1) ++ "-" ++ String.mk (natChars p7.1)
  let p8 := uniformQ (3 / 10) (95 / 100) p7.2
  ({ VENDOR_ID := vendorId, NAME := p4.1, COUNTRY_CODE := region, CITY := p2.1,
     PHONE := phone, TIER := 1, FINANCIAL_HEALTH_SCORE := round2 p8.1 }, p8.2)

/-- The `generate_vendors` loop: `n` remaining iterations, current index
`i`, accumulated `used_names`. -/
def vendorLoop : Nat → Nat → List String → RNG → List Vendor × RNG
  | 0, _, _, r => ([], r)
  | n + 1, i, used, r =>
    let p := vendorStep i used r
    let rest := vendorLoop n (i + 1) (p.1.NAME :: used) p.2
    (p.1 :: rest.1, rest.2)

/-- `generate_vendors(num_vendors)`; a negative count iterates zero
times, as Python's `range` does. -/
def generate_vendors (numVendors : Int) (r : RNG) : List Vendor × RNG :=
  vendorLoop numVendors.toNat 0 [] r

/-! ### Uniqueness of generated vendor names -/

theorem strData_mk (l : List Char) : (String.mk l).data = l := rfl

theorem companyTemplates_sub_all (c : String) :
    ∀ n ∈ companyTemplates c, n ∈ allPoolNames := by
  intro n h
  by_cases h1 : c = "battery"
  · subst h1; simp only [allPoolNames, List.mem_append]; tauto
  by_cases h2 : c = "lithium"
  · subst h2; simp only [allPoolNames, List.mem_append]; tauto
  by_cases h3 : c = "cobalt"
  · subst h3; simp only [allPoolNames, List.mem_append]; tauto
  by_cases h4 : c = "copper"
  · subst h4; simp only [allPoolNames, List.mem_append]; tauto
  by_cases h5 : c = "electronics"
  · subst h5; simp only [allPoolNames, List.mem_append]; tauto
  by_cases h6 : c = "materials"
  · subst h6; simp only [allPoolNames, List.mem_append]; tauto
  have hg : n ∈ companyTemplates "generic" := by
    simp only [companyTemplates, h1, h2, h3, h4, h5, h6, if_false, if_neg,
      reduceIte] at h ⊢
    exact h
  simp only [allPoolNames, List.mem_append]
  tauto

theorem defaultCat_mem (r : RNG) : (defaultCat r).1 ∈ categoryKeys := by
  have h := choiceD_mem "materials" ["materials", "generic", "copper"] r (by simp)
  simp only [List.mem_cons, List.not_mem_nil, or_false] at h
  rcases h with h | h | h <;> rw [defaultCat, h] <;> decide

theorem catBranch_mem (s : String) (hs : s ∈ categoryKeys) (c : ℚ) (r : RNG) :
    (if (randFloat r).1 < c then (s, (randFloat r).2)
      else defaultCat (randFloat r).2).1 ∈ categoryKeys := by
  by_cases hq : (randFloat r).1 < c
  · rw [if_pos hq]; exact hs
  · rw [if_neg hq]; exact defaultCat_mem _

theorem categoryChoice_mem (region : String) (r : RNG) :
    (categoryChoice region r).1 ∈ categoryKeys := by
  unfold categoryChoice
  by_cases h1 : region = "CHL" ∨ region = "AUS"
  · rw [if_pos h1]; exact catBranch_mem _ (by decide) _ r
  rw [if_neg h1]
  by_cases h2 : region = "COD"
  · rw [if_pos h2]; exact catBranch_mem _ (by decide) _ r
  rw [if_neg h2]
  by_cases h3 : region = "KOR" ∨ region = "CHN" ∨ region = "JPN"
  · rw [if_pos h3]; exact catBranch_mem _ (by decide) _ r
  rw [if_neg h3]
  by_cases h4 : region = "USA" ∨ region = "DEU"
  · rw [if_pos h4]; exact catBranch_mem _ (by decide) _ r
  rw [if_neg h4]
  exact defaultCat_mem r

theorem digitTail_fallback (c : String) (hc : c ∈ categoryKeys) (i : Nat) :
    digitTail (fallbackName c i).data = (natChars (i + 1)).reverse := by
  fin_cases hc <;>
    · rw [fallbackName, strData_append, strData_mk]
      exact digitTail_append_natChars _ _ (by decide)

theorem pool_digitTail : ∀ s ∈ allPoolNames, digitTail s.data = [] := by decide

theorem fallback_notin_pool (c : String) (hc : c ∈ categoryKeys) (i : Nat) :
    fallbackName c i ∉ allPoolNames := by
  intro hmem
  have h1 := pool_digitTail _ hmem
  rw [digitTail_fallback c hc i] at h1
  exact natChars_ne_nil (i + 1) (by simpa using h1)

theorem fallback_inj {c c' : String} (hc : c ∈ categoryKeys) (hc' : c' ∈ categoryKeys)
    {i j : Nat} (h : fallbackName c i = fallbackName c' j) : i = j :=
  by
  have hdata : (fallbackName c i).data = (fallbackName c' j).data := congrArg String.data h
  have ht : digitTail (fallbackName c i).data = digitTail (fallbackName c' j).data :=
    congrArg digitTail hdata
  rw [digitTail_fallback c hc i, digitTail_fallback c' hc' j] at ht
  have := natChars_inj (List.reverse_injective ht)
  omega

/-- Every name ever placed in `used_names` is either a pool name or a
fallback name synthesized at an earlier loop index. -/
def PoolOrFb (i : Nat) (s : String) : Prop :=
  s ∈ allPoolNames ∨ ∃ c ∈ categoryKeys, ∃ j < i, s = fallbackName c j

theorem PoolOrFb.mono {i : Nat} {s : String} (h : PoolOrFb i s) : PoolOrFb (i + 1) s := by
  rcases h with h | ⟨c, hc, j, hj, rfl⟩
  · exact Or.inl h
  · exact Or.inr ⟨c, hc, j, by omega, rfl⟩

theorem nameChoice_spec (category : String) (used : List String) (i : Nat) (r : RNG)
    (hcat : category ∈ categoryKeys) (hused : ∀ s ∈ used, PoolOrFb i s) :
    (nameChoice category used i r).1 ∉ used ∧
      PoolOrFb (i + 1) (nameChoice category used i r).1 := by
  unfold nameChoice
  cases havail : (companyTemplates category).filter (fun n => decide (n ∉ used)) with
  | nil =>
    refine ⟨?_, Or.inr ⟨category, hcat, i, by omega, rfl⟩⟩
    intro hmem
    rcases hused _ hmem with hpool | ⟨c', hc', j, hj, heq⟩
    · exact fallback_notin_pool category hcat i hpool
    · exact absurd (fallback_inj hcat hc' heq) (by omega)
  | cons a t =>
    show (choiceD a (a :: t) r).1 ∉ used ∧ PoolOrFb (i + 1) (choiceD a (a :: t) r).1
    have hmem : (choiceD a (a :: t) r).1 ∈ a :: t := choiceD_mem a (a :: t) r (by simp)
    have hmem' : (choiceD a (a :: t) r).1
        ∈ (companyTemplates category).filter (fun n => decide (n ∉ used)) := by
      rw [havail]; exact hmem
    have h2 := List.mem_filter.mp hmem'
    exact ⟨of_decide_eq_true h2.2, Or.inl (companyTemplates_sub_all category _ h2.1)⟩

theorem vendorStep_name (i : Nat) (used : List String) (r : RNG)
    (hused : ∀ s ∈ used, PoolOrFb i s) :
    (vendorStep i used r).1.NAME ∉ used ∧ PoolOrFb (i + 1) (vendorStep i used r).1.NAME := by
  have hcat := categoryChoice_mem (regionChoice r).1 (choiceD "" (citiesOf (regionChoice r).1) (regionChoice r).2).2
  exact nameChoice_spec _ used i _ hcat hused

theorem vendorLoop_names :
    ∀ (n i : Nat) (used : List String) (r : RNG), (∀ s ∈ used, PoolOrFb i s) →
      (vendorLoop n i used r).1.length = n ∧
        ((vendorLoop n i used r).1.map (fun v => v.NAME)).Nodup ∧
        ∀ v ∈ (vendorLoop n i used r).1, v.NAME ∉ used := by
  intro n
  induction n with
  | zero => intro i used r _; simp [vendorLoop]
  | succ m ih =>
    intro i used r hused
    have hstep := vendorStep_name i used r hused
    have hused' : ∀ s ∈ (vendorStep i used r).1.NAME :: used, PoolOrFb (i + 1) s := by
      intro s hs
      rcases List.mem_cons.mp hs with rfl | hsu
      · exact hstep.2
      · exact (hused s hsu).mono
    have hrec := ih (i + 1) ((vendorStep i used r).1.NAME :: used) (vendorStep i used r).2 hused'
    refine ⟨by simp [vendorLoop, hrec.1], ?_, ?_⟩
    · simp only [vendorLoop, List.map_cons, List.nodup_cons]
      refine ⟨?_, hrec.2.1⟩
      intro hmem
      rcases List.mem_map.mp hmem with ⟨w, hw, hweq⟩
      exact hrec.2.2 w hw (by rw [hweq]; exact List.mem_cons_self _ _)
    · intro v hv
      rcases List.mem_cons.mp (by simpa [vendorLoop] using hv) with rfl | hvrest
      · exact hstep.1
      · intro hmem
        exact hrec.2.2 v hvrest (List.mem_cons_of_mem _ hmem)

/-- Claim C4: `generate_vendors(count)` returns exactly `count` vendor
records whose `NAME` values are pairwise distinct, for every
non-negative count; fallback names never collide with each other or
with pool names. -/
theorem generate_vendors_count_nodup (numVendors : Int) (r : RNG)
    (h : 0 ≤ numVendors) :
    ((generate_vendors numVendors r).1.length : Int) = numVendors ∧
      ((generate_vendors numVendors r).1.map (fun v => v.NAME)).Nodup := by
  have hloop := vendorLoop_names numVendors.toNat 0 [] r (by intro s hs; simp at hs)
  exact ⟨by rw [generate_vendors, hloop.1]; exact Int.toNat_of_nonneg h,
    hloop.2.1⟩

/-- A fixed concrete RNG stream used by the closed witness instances. -/
def rng0 : RNG := ⟨fun _ => 0, 0⟩

/-- Witness for C4 at count 3. -/
theorem generate_vendors_count_nodup_witness :
    (0 : Int) ≤ 3 ∧
      (((generate_vendors 3 rng0).1.length : Int) = 3 ∧
        ((generate_vendors 3 rng0).1.map (fun v => v.NAME)).Nodup) :=
  ⟨by norm_num, generate_vendors_count_nodup 3 rng0 (by norm_num)⟩

/-! ### Material & BOM generator -/

/-- A hardcoded material entry of the source's `finished` /
`semi_finished` / `raw_materials` tables. -/
structure MatSpec where
  id : String
  desc : String
  group : String
  unit : String
  crit : ℚ
deriving DecidableEq

def finishedSpecs : List MatSpec :=
  [⟨"M-1000", "EV Battery Pack 85kWh", "FIN", "PC", 1⟩]

def semiFinishedSpecs : List MatSpec :=
  [⟨"M-2001", "Battery Module 400V", "SEMI", "PC", 95 / 100⟩,
   ⟨"M-2002", "Battery Management System", "SEMI", "PC", 9 / 10⟩,
   ⟨"M-2003", "Thermal Management Assembly", "SEMI", "PC", 85 / 100⟩,
   ⟨"M-2004", "Battery Enclosure Assembly", "SEMI", "PC", 8 / 10⟩,
   ⟨"M-2005", "High-Voltage Harness", "SEMI", "PC", 85 / 100⟩]

def rawMaterialSpecs : List MatSpec :=
  [⟨"M-3001", "Lithium Hydroxide Grade A", "RAW", "KG", 95 / 100⟩,
   ⟨"M-3002", "Lithium Carbonate Battery Grade", "RAW", "KG", 95 / 100⟩,
   ⟨"M-3003", "Cobalt Oxide Powder", "RAW", "KG", 9 / 10⟩,
   ⟨"M-3004", "Nickel Sulfate Battery Grade", "RAW", "KG", 85 / 100⟩,
   ⟨"M-3005", "Manganese Dioxide", "RAW", "KG", 75 / 100⟩,
   ⟨"M-3006", "Synthetic Graphite Anode", "RAW", "KG", 85 / 100⟩,
   ⟨"M-3007", "Silicon Anode Additive", "RAW", "KG", 7 / 10⟩,
   ⟨"M-3008", "Copper Foil 8 Micron", "RAW", "KG", 85 / 100⟩,
   ⟨"M-3009", "Copper Busbar 5mm", "RAW", "KG", 8 / 10⟩,
   ⟨"M-3010", "Aluminum Foil 15 Micron", "RAW", "KG", 8 / 10⟩,
   ⟨"M-3011", "Aluminum Housing Profile", "RAW", "KG", 7 / 10⟩,
   ⟨"M-3012", "Electrolyte LiPF6 Solution", "RAW", "L", 9 / 10⟩,
   ⟨"M-3013", "Ceramic Coated Separator", "RAW", "M2", 9 / 10⟩,
   ⟨"M-3014", "BMS Controller IC", "RAW", "PC", 85 / 100⟩,
   ⟨"M-3015", "Cell Monitoring ASIC", "RAW", "PC", 85 / 100⟩,
   ⟨"M-3016", "Power MOSFET Module", "RAW", "PC", 8 / 10⟩,
   ⟨"M-3017", "Thermal Interface Material", "RAW", "KG", 75 / 100⟩,
   ⟨"M-3018", "Cooling Plate Aluminum", "RAW", "PC", 7 / 10⟩,
   ⟨"M-3019", "High-Voltage Cable 35mm2", "RAW", "M", 8 / 10⟩,
   ⟨"M-3020", "Connector Assembly HV", "RAW", "PC", 75 / 100⟩]

def allMaterialSpecs : List MatSpec :=
  finishedSpecs ++ semiFinishedSpecs ++ rawMaterialSpecs

/-- A row of the material master. -/
structure Material where
  MATERIAL_ID : String
  DESCRIPTION : String
  MATERIAL_GROUP : String
  UNIT_OF_MEASURE : String
  CRITICALITY_SCORE : ℚ
  INVENTORY_DAYS : Nat
deriving DecidableEq

/-- A bill-of-materials edge. -/
structure BomEdge where
  BOM_ID : String
  PARENT_MATERIAL_ID : String
  CHILD_MATERIAL_ID : String
  QUANTITY_PER_UNIT : ℚ
deriving DecidableEq

/-- Materials loop: each row draws `INVENTORY_DAYS = randint(15, 60)`. -/
def matLoop : List MatSpec → RNG → List Material × RNG
  | [], r => ([], r)
  | m :: rest, r =>
    let p := pyRandInt 15 60 r
    let tail := matLoop rest p.2
    ({ MATERIAL_ID := m.id, DESCRIPTION := m.desc, MATERIAL_GROUP := m.group,
       UNIT_OF_MEASURE := m.unit, CRITICALITY_SCORE := m.crit,
       INVENTORY_DAYS := p.1 } :: tail.1, tail.2)

/-- `f"BOM-{bom_id:04d}"`: zero-padded BOM identifier. -/
def bomIdStr (n : Nat) : String :=
  "BOM-" ++ String.mk (List.replicate (4 - (natChars n).length) '0' ++ natChars n)

/-- Finished-good → semi-finished BOM edges (quantity `randint(1, 4)`). -/
def finSemiLoop : List MatSpec → Nat → RNG → List BomEdge × RNG
  | [], _, r => ([], r)
  | s :: rest, bomId, r =>
    let p := pyRandInt 1 4 r
    let tail := finSemiLoop rest (bomId + 1) p.2
    ({ BOM_ID := bomIdStr bomId, PARENT_MATERIAL_ID := "M-1000",
       CHILD_MATERIAL_ID := s.id, QUANTITY_PER_UNIT := (p.1 : ℚ) } :: tail.1, tail.2)

/-- The `semi_to_raw` grouping table. -/
def semiToRaw : List (String × List String) :=
  [("M-2001", ["M-3001", "M-3002", "M-3003", "M-3004", "M-3006", "M-3008",
               "M-3010", "M-3012", "M-3013"]),
   ("M-2002", ["M-3014", "M-3015", "M-3016"]),
   ("M-2003", ["M-3017", "M-3018"]),
   ("M-2004", ["M-3011"]),
   ("M-2005", ["M-3009", "M-3019", "M-3020"])]

/-- Semi-finished → raw BOM edges for one parent
(quantity `round(uniform(0.5, 10), 2)`). -/
def semiRawInner : String → List String → Nat → RNG → List BomEdge × RNG
  | _, [], _, r => ([], r)
  | parent, c :: cs, bomId, r =>
    let p := uniformQ (5 / 10) 10 r
    let tail := semiRawInner parent cs (bomId + 1) p.2
    ({ BOM_ID := bomIdStr bomId, PARENT_MATERIAL_ID := parent,
       CHILD_MATERIAL_ID := c, QUANTITY_PER_UNIT := round2 p.1 } :: tail.1, tail.2)

def semiRawOuter : List (String × List String) → Nat → RNG → List BomEdge × RNG
  | [], _, r => ([], r)
  | pr :: rest, bomId, r =>
    let inner := semiRawInner pr.1 pr.2 bomId r
    let tail := semiRawOuter rest (bomId + pr.2.length) inner.2
    (inner.1 ++ tail.1, tail.2)

/-- `generate_materials()`: the full material master plus BOM edges. -/
def generate_materials (r : RNG) : (List Material × List BomEdge) × RNG :=
  let ms := matLoop allMaterialSpecs r
  let fs := finSemiLoop semiFinishedSpecs 1 ms.2
  let sr := semiRawOuter semiToRaw (1 + semiFinishedSpecs.length) fs.2
  ((ms.1, fs.1 ++ sr.1), sr.2)

/-! ### Structural facts about the generated materials -/

/-- Projection of the material master onto (id, group) pairs. -/
def matGroupPairs (ms : List Material) : List (String × String) :=
  ms.map (fun m => (m.MATERIAL_ID, m.MATERIAL_GROUP))

/-- Projection of the BOM onto (parent, child) pairs. -/
def bomPairs (bom : List BomEdge) : List (String × String) :=
  bom.map (fun e => (e.PARENT_MATERIAL_ID, e.CHILD_MATERIAL_ID))

/-- The (id, group) pairs are those of the hardcoded tables, whatever
the RNG stream supplies for the random fields. -/
def staticMGP : List (String × String) :=
  allMaterialSpecs.map (fun m => (m.id, m.group))

def pairsOfGroups : List (String × List String) → List (String × String)
  | [] => []
  | pr :: rest => pr.2.map (fun c => (pr.1, c)) ++ pairsOfGroups rest

def staticBP : List (String × String) :=
  semiFinishedSpecs.map (fun s => ("M-1000", s.id)) ++ pairsOfGroups semiToRaw

theorem mgp_eq (r : RNG) :
    matGroupPairs ((generate_materials r).1.1) = staticMGP := rfl

theorem bp_eq (r : RNG) :
    bomPairs ((generate_materials r).1.2) = staticBP := rfl

theorem edge_shape_static :
    ∀ pr ∈ staticBP,
      ((pr.1, "FIN") ∈ staticMGP ∧ (pr.2, "SEMI") ∈ staticMGP) ∨
        ((pr.1, "SEMI") ∈ staticMGP ∧ (pr.2, "RAW") ∈ staticMGP) := by decide

theorem no_raw_parent_static : ∀ pr ∈ staticBP, (pr.1, "RAW") ∉ staticMGP := by decide

theorem no_semi_semi_static :
    ∀ pr ∈ staticBP,
      ¬((pr.1, "SEMI") ∈ staticMGP ∧ (pr.2, "SEMI") ∈ staticMGP) := by decide

def semiIds : List String := semiFinishedSpecs.map (fun s => s.id)

/-- Rank function witnessing that BOM edges descend the hierarchy. -/
def matRank (s : String) : Nat :=
  if s = "M-1000" then 0 else if s ∈ semiIds then 1 else 2

theorem rank_increases_static : ∀ pr ∈ staticBP, matRank pr.1 < matRank pr.2 := by decide

/-- The edge relation of a BOM edge list. -/
def BomRel (bom : List BomEdge) (a b : String) : Prop :=
  ∃ e ∈ bom, e.PARENT_MATERIAL_ID = a ∧ e.CHILD_MATERIAL_ID = b

theorem bomRel_pair {bom : List BomEdge} {a b : String} (h : BomRel bom a b) :
    (a, b) ∈ bomPairs bom := by
  rcases h with ⟨e, he, h1, h2⟩
  subst h1
  subst h2
  exact List.mem_map_of_mem _ he

theorem transGen_rank {bom : List BomEdge}
    (hrk : ∀ a b, BomRel bom a b → matRank a < matRank b) :
    ∀ a b, Relation.TransGen (BomRel bom) a b → matRank a < matRank b := by
  intro a b h
  induction h with
  | single h1 => exact hrk _ _ h1
  | tail _ h2 ih => exact Nat.lt_trans ih (hrk _ _ h2)

/-- Claim C3: `generate_materials()` returns exactly 26 materials
(1 FIN, 5 SEMI, 20 RAW) and BOM edges forming a strict two-level
hierarchy: every edge goes FIN→SEMI or SEMI→RAW, no RAW node has an
outgoing edge, no SEMI→SEMI edge exists, and the edge set is acyclic. -/
theorem generate_materials_cardinality_hierarchy (r : RNG) :
    ((generate_materials r).1.1).length = 26 ∧
      (matGroupPairs ((generate_materials r).1.1)).countP (fun pr => pr.2 == "FIN") = 1 ∧
      (matGroupPairs ((generate_materials r).1.1)).countP (fun pr => pr.2 == "SEMI") = 5 ∧
      (matGroupPairs ((generate_materials r).1.1)).countP (fun pr => pr.2 == "RAW") = 20 ∧
      (∀ e ∈ (generate_materials r).1.2,
        ((e.PARENT_MATERIAL_ID, "FIN") ∈ matGroupPairs ((generate_materials r).1.1) ∧
            (e.CHILD_MATERIAL_ID, "SEMI") ∈ matGroupPairs ((generate_materials r).1.1)) ∨
          ((e.PARENT_MATERIAL_ID, "SEMI") ∈ matGroupPairs ((generate_materials r).1.1) ∧
            (e.CHILD_MATERIAL_ID, "RAW") ∈ matGroupPairs ((generate_materials r).1.1))) ∧
      (∀ e ∈ (generate_materials r).1.2,
        (e.PARENT_MATERIAL_ID, "RAW") ∉ matGroupPairs ((generate_materials r).1.1)) ∧
      (∀ e ∈ (generate_materials r).1.2,
        ¬((e.PARENT_MATERIAL_ID, "SEMI") ∈ matGroupPairs ((generate_materials r).1.1) ∧
          (e.CHILD_MATERIAL_ID, "SEMI") ∈ matGroupPairs ((generate_materials r).1.1))) ∧
      (∀ a : String, ¬ Relation.TransGen (BomRel ((generate_materials r).1.2)) a a) := by
  have hlen : ((generate_materials r).1.1).length = 26 := by
    have h1 : (matGroupPairs ((generate_materials r).1.1)).length
        = ((generate_materials r).1.1).length := List.length_map _ _
    rw [← h1, mgp_eq r]
    decide
  refine ⟨hlen, ?_, ?_, ?_, ?_, ?_, ?_, ?_⟩
  · rw [mgp_eq r]; decide
  · rw [mgp_eq r]; decide
  · rw [mgp_eq r]; decide
  · intro e he
    have hpair : (e.PARENT_MATERIAL_ID, e.CHILD_MATERIAL_ID) ∈ staticBP := by
      rw [← bp_eq r]; exact List.mem_map_of_mem _ he
    rw [mgp_eq r]
    exact edge_shape_static _ hpair
  · intro e he
    have hpair : (e.PARENT_MATERIAL_ID, e.CHILD_MATERIAL_ID) ∈ staticBP := by
      rw [← bp_eq r]; exact List.mem_map_of_mem _ he
    rw [mgp_eq r]
    exact no_raw_parent_static _ hpair
  · intro e he
    have hpair : (e.PARENT_MATERIAL_ID, e.CHILD_MATERIAL_ID) ∈ staticBP := by
      rw [← bp_eq r]; exact List.mem_map_of_mem _ he
    rw [mgp_eq r]
    exact no_semi_semi_static _ hpair
  · intro a h
    have hrk : ∀ x y, BomRel ((generate_materials r).1.2) x y → matRank x < matRank y := by
      intro x y hxy
      apply rank_increases_static (x, y)
      rw [← bp_eq r]
      exact bomRel_pair hxy
    exact lt_irrefl _ (transGen_rank hrk a a h)

/-! ### Purchase order generator -/

/-- A purchase order row.  Dates are day offsets from the fixed
2023-01-01 base date of the source. -/
structure PurchaseOrder where
  PO_ID : String
  VENDOR_ID : String
  MATERIAL_ID : String
  QUANTITY : Nat
  UNIT_PRICE : ℚ
  ORDER_DATE : Nat
  DELIVERY_DATE : Nat
  STATUS : String
deriving DecidableEq

/-- The `material_region_affinity` table. -/
def materialRegionAffinity : List (String × List String) :=
  [("M-3001", ["CHL", "AUS", "CHN"]),
   ("M-3002", ["CHL", "AUS", "CHN"]),
   ("M-3003", ["COD", "CHN"]),
   ("M-3004", ["CHN", "JPN"]),
   ("M-3006", ["CHN", "JPN"]),
   ("M-3008", ["CHL", "USA"]),
   ("M-3009", ["CHL", "USA"]),
   ("M-3014", ["USA", "JPN", "KOR", "DEU"]),
   ("M-3015", ["USA", "JPN", "KOR", "DEU"]),
   ("M-3016", ["DEU", "JPN", "USA"])]

/-- `list(REGIONS.keys())`: the default preferred-region set. -/
def regionCodes : List String := REGIONS.map (fun p => p.1)

/-- Material selection: 85% raw, 15% semi-finished. -/
def poMaterialChoice (raws semis : List Material) (r : RNG) : Option (Material × RNG) :=
  let pq := randFloat r
  if pq.1 < 85 / 100 then choiceO raws pq.2 else choiceO semis pq.2

/-- Vendor selection: filter to the material's preferred regions and
fall back to the full pool when the filtered set is empty. -/
def poVendorChoice (vendors : List Vendor) (material : Material) (r : RNG) :
    Option (Vendor × RNG) :=
  let prefRegions := (materialRegionAffinity.lookup material.MATERIAL_ID).getD regionCodes
  let prefVendors := vendors.filter (fun v => decide (v.COUNTRY_CODE ∈ prefRegions))
  let pool := if prefVendors.isEmpty then vendors else prefVendors
  choiceO pool r

/-- One iteration of the `generate_purchase_orders` loop. -/
def poStep (vendors : List Vendor) (raws semis : List Material) (i : Nat) (r : RNG) :
    Option (PurchaseOrder × RNG) :=
  match poMaterialChoice raws semis r with
  | none => none
  | some mr =>
    match poVendorChoice vendors mr.1 mr.2 with
    | none => none
    | some vr =>
      let pqty := if mr.1.MATERIAL_GROUP == "RAW" then pyRandInt 500 10000 vr.2
        else pyRandInt 50 500 vr.2
      let pprice := if mr.1.MATERIAL_GROUP == "RAW" then uniformQ 5 500 pqty.2
        else uniformQ 500 5000 pqty.2
      let pod := pyRandInt 0 365 pprice.2
      let pdd := pyRandInt 14 90 pod.2
      let pst := choiceD "OPEN" ["OPEN", "CLOSED", "CLOSED", "CLOSED"] pdd.2
      some ({ PO_ID := "PO-" ++ String.mk (natChars (9001 + i)),
              VENDOR_ID := vr.1.VENDOR_ID, MATERIAL_ID := mr.1.MATERIAL_ID,
              QUANTITY := pqty.1, UNIT_PRICE := round2 pprice.1,
              ORDER_DATE := pod.1, DELIVERY_DATE := pod.1 + pdd.1,
              STATUS := pst.1 }, pst.2)

def poLoop (vendors : List Vendor) (raws semis : List Material) :
    Nat → Nat → RNG → Option (List PurchaseOrder × RNG)
  | 0, _, r => some ([], r)
  | n + 1, i, r =>
    match poStep vendors raws semis i r with
    | none => none
    | some or1 =>
      match poLoop vendors raws semis n (i + 1) or1.2 with
      | none => none
      | some rest => some (or1.1 :: rest.1, rest.2)

/-- `generate_purchase_orders(vendors, materials, num_orders)`. -/
def generate_purchase_orders (vendors : List Vendor) (materials : List Material)
    (numOrders : Int) (r : RNG) : Option (List PurchaseOrder × RNG) :=
  let raws := materials.filter (fun m => m.MATERIAL_GROUP == "RAW")
  let semis := materials.filter (fun m => m.MATERIAL_GROUP == "SEMI")
  poLoop vendors raws semis numOrders.toNat 0 r

/-! ### Per-order properties -/

/-- The per-order invariant: the material comes from the raw or semi
pools, the vendor comes from the full pool, and when the material has a
declared region affinity with a nonempty preferred-vendor subset the
vendor comes from that subset. -/
def PoOk (vendors : List Vendor) (raws semis : List Material) (o : PurchaseOrder) : Prop :=
  (∃ m, (m ∈ raws ∨ m ∈ semis) ∧ o.MATERIAL_ID = m.MATERIAL_ID) ∧
    (∃ v ∈ vendors, o.VENDOR_ID = v.VENDOR_ID) ∧
    ∀ regs, materialRegionAffinity.lookup o.MATERIAL_ID = some regs →
      vendors.filter (fun w => decide (w.COUNTRY_CODE ∈ regs)) ≠ [] →
      ∃ v ∈ vendors.filter (fun w => decide (w.COUNTRY_CODE ∈ regs)),
        o.VENDOR_ID = v.VENDOR_ID

theorem poMaterialChoice_spec (raws semis : List Material) (r : RNG)
    (h1 : raws ≠ []) (h2 : semis ≠ []) :
    ∃ m r', poMaterialChoice raws semis r = some (m, r') ∧ (m ∈ raws ∨ m ∈ semis) := by
  unfold poMaterialChoice
  show ∃ m r', (if (randFloat r).1 < 85 / 100 then choiceO raws (randFloat r).2
    else choiceO semis (randFloat r).2) = some (m, r') ∧ (m ∈ raws ∨ m ∈ semis)
  by_cases hq : (randFloat r).1 < 85 / 100
  · rw [if_pos hq]
    cases hc : choiceO raws (randFloat r).2 with
    | none => exact absurd hc (choiceO_ne_none _ _ h1)
    | some p =>
      obtain ⟨m, r'⟩ := p
      exact ⟨m, r', rfl, Or.inl (choiceO_mem hc)⟩
  · rw [if_neg hq]
    cases hc : choiceO semis (randFloat r).2 with
    | none => exact absurd hc (choiceO_ne_none _ _ h2)
    | some p =>
      obtain ⟨m, r'⟩ := p
      exact ⟨m, r', rfl, Or.inr (choiceO_mem hc)⟩

theorem pickPool_spec {α : Type} (pool pv : List α) (r : RNG)
    (hv : pool ≠ []) (hsub : ∀ x ∈ pv, x ∈ pool) :
    ∃ v r', choiceO (if pv.isEmpty then pool else pv) r = some (v, r') ∧
      v ∈ pool ∧ (pv ≠ [] → v ∈ pv) := by
  by_cases he : pv.isEmpty
  · rw [if_pos he]
    cases hc : choiceO pool r with
    | none => exact absurd hc (choiceO_ne_none _ _ hv)
    | some p =>
      obtain ⟨v, r'⟩ := p
      refine ⟨v, r', rfl, choiceO_mem hc, ?_⟩
      intro hne
      exact absurd (List.isEmpty_iff.mp he) hne
  · rw [if_neg he]
    have hpv : pv ≠ [] := by
      intro h
      rw [h] at he
      exact he rfl
    cases hc : choiceO pv r with
    | none => exact absurd hc (choiceO_ne_none _ _ hpv)
    | some p =>
      obtain ⟨v, r'⟩ := p
      exact ⟨v, r', rfl, hsub v (choiceO_mem hc), fun _ => choiceO_mem hc⟩

theorem poVendorChoice_spec (vendors : List Vendor) (material : Material) (r : RNG)
    (hv : vendors ≠ []) :
    ∃ v r', poVendorChoice vendors material r = some (v, r') ∧ v ∈ vendors ∧
      ∀ regs, materialRegionAffinity.lookup material.MATERIAL_ID = some regs →
        vendors.filter (fun w => decide (w.COUNTRY_CODE ∈ regs)) ≠ [] →
        v ∈ vendors.filter (fun w => decide (w.COUNTRY_CODE ∈ regs)) := by
  obtain ⟨v, r', hc, hin, hp⟩ := pickPool_spec vendors
    (vendors.filter (fun w => decide (w.COUNTRY_CODE ∈
      (materialRegionAffinity.lookup material.MATERIAL_ID).getD regionCodes))) r hv
    (fun x hx => (List.mem_filter.mp hx).1)
  refine ⟨v, r', hc, hin, ?_⟩
  intro regs hregs hne
  have hPR : (materialRegionAffinity.lookup material.MATERIAL_ID).getD regionCodes
      = regs := by rw [hregs]; rfl
  rw [hPR] at hp
  exact hp hne

theorem poStep_spec (vendors : List Vendor) (raws semis : List Material) (i : Nat)
    (r : RNG) (hv : vendors ≠ []) (hraw : raws ≠ []) (hsemi : semis ≠ []) :
    ∃ o r', poStep vendors raws semis i r = some (o, r') ∧ PoOk vendors raws semis o := by
  obtain ⟨m, r1, hmc, hm⟩ := poMaterialChoice_spec raws semis r hraw hsemi
  obtain ⟨v, r2, hvc, hvin, haff⟩ := poVendorChoice_spec vendors m r1 hv
  have hrun : ∃ o r', poStep vendors raws semis i r = some (o, r') ∧
      o.MATERIAL_ID = m.MATERIAL_ID ∧ o.VENDOR_ID = v.VENDOR_ID := by
    simp only [poStep, hmc, hvc]
    exact ⟨_, _, rfl, rfl, rfl⟩
  obtain ⟨o, r', ho, hom, hov⟩ := hrun
  refine ⟨o, r', ho, ⟨m, hm, hom⟩, ⟨v, hvin, hov⟩, ?_⟩
  intro regs hregs hne
  rw [hom] at hregs
  exact ⟨v, haff regs hregs hne, hov⟩

theorem poLoop_spec (vendors : List Vendor) (raws semis : List Material)
    (hv : vendors ≠ []) (hraw : raws ≠ []) (hsemi : semis ≠ []) :
    ∀ (n i : Nat) (r : RNG), ∃ orders r',
      poLoop vendors raws semis n i r = some (orders, r') ∧
        orders.length = n ∧ ∀ o ∈ orders, PoOk vendors raws semis o := by
  intro n
  induction n with
  | zero => intro i r; exact ⟨[], r, rfl, rfl, by simp⟩
  | succ k ih =>
    intro i r
    obtain ⟨o, r1, ho, hok⟩ := poStep_spec vendors raws semis i r hv hraw hsemi
    obtain ⟨rest, r2, hrest, hlen, hall⟩ := ih (i + 1) r1
    refine ⟨o :: rest, r2, ?_, by simp [hlen], ?_⟩
    · simp only [poLoop, ho, hrest]
    · intro x hx
      rcases List.mem_cons.mp hx with rfl | hxr
      · exact hok
      · exact hall x hxr


theorem countP_raws (rm : RNG) :
    ((generate_materials rm).1.1).countP (fun m => m.MATERIAL_GROUP == "RAW") = 20 := by
  have h2 : (matGroupPairs ((generate_materials rm).1.1)).countP
      (fun pr => pr.2 == "RAW") = 20 := by
    rw [mgp_eq]; decide
  rw [matGroupPairs, List.countP_map] at h2
  exact h2

theorem countP_semis (rm : RNG) :
    ((generate_materials rm).1.1).countP (fun m => m.MATERIAL_GROUP == "SEMI") = 5 := by
  have h2 : (matGroupPairs ((generate_materials rm).1.1)).countP
      (fun pr => pr.2 == "SEMI") = 5 := by
    rw [mgp_eq]; decide
  rw [matGroupPairs, List.countP_map] at h2
  exact h2

theorem filter_raws_ne_nil (rm : RNG) :
    ((generate_materials rm).1.1).filter (fun m => m.MATERIAL_GROUP == "RAW") ≠ [] := by
  intro h
  have h1 : ((generate_materials rm).1.1).countP (fun m => m.MATERIAL_GROUP == "RAW")
      = 0 := by
    rw [List.countP_eq_length_filter, h]
    rfl
  rw [countP_raws rm] at h1
  exact absurd h1 (by norm_num)

theorem filter_semis_ne_nil (rm : RNG) :
    ((generate_materials rm).1.1).filter (fun m => m.MATERIAL_GROUP == "SEMI") ≠ [] := by
  intro h
  have h1 : ((generate_materials rm).1.1).countP (fun m => m.MATERIAL_GROUP == "SEMI")
      = 0 := by
    rw [List.countP_eq_length_filter, h]
    rfl
  rw [countP_semis rm] at h1
  exact absurd h1 (by norm_num)

/-- Claim C5: for a non-empty vendor list, every generated purchase
order respects the material→preferred-region affinity whenever the
material has a declared affinity entry and some input vendor lies in
those regions; otherwise the vendor is drawn from the full pool, and
generation never fails. -/
theorem generate_purchase_orders_affinity (rm rp : RNG) (vendors : List Vendor)
    (numOrders : Int) (hv : vendors ≠ []) :
    ∃ orders r',
      generate_purchase_orders vendors ((generate_materials rm).1.1) numOrders rp
          = some (orders, r') ∧
        orders.length = numOrders.toNat ∧
        ∀ o ∈ orders,
          (∀ regs, materialRegionAffinity.lookup o.MATERIAL_ID = some regs →
            vendors.filter (fun w => decide (w.COUNTRY_CODE ∈ regs)) ≠ [] →
            ∃ v ∈ vendors.filter (fun w => decide (w.COUNTRY_CODE ∈ regs)),
              o.VENDOR_ID = v.VENDOR_ID) ∧
          (∃ v ∈ vendors, o.VENDOR_ID = v.VENDOR_ID) := by
  obtain ⟨orders, r', hrun, hlen, hall⟩ := poLoop_spec vendors
    (((generate_materials rm).1.1).filter (fun m => m.MATERIAL_GROUP == "RAW"))
    (((generate_materials rm).1.1).filter (fun m => m.MATERIAL_GROUP == "SEMI"))
    hv (filter_raws_ne_nil rm) (filter_semis_ne_nil rm) numOrders.toNat 0 rp
  exact ⟨orders, r', hrun, hlen,
    fun o ho => ⟨(hall o ho).2.2, (hall o ho).2.1⟩⟩

/-- A keyword-free vendor used by the closed witness instances. -/
def vSafe : Vendor :=
  ⟨"V90001", "Codelco", "USA", "Houston", "+1-555-000-0000", 1, 1 / 2⟩

/-- Witness for C5. -/
theorem generate_purchase_orders_affinity_witness :
    ([vSafe] : List Vendor) ≠ [] ∧
      ∃ orders r',
        generate_purchase_orders [vSafe] ((generate_materials rng0).1.1) 5 rng0
            = some (orders, r') ∧
          orders.length = (5 : Int).toNat ∧
          ∀ o ∈ orders,
            (∀ regs, materialRegionAffinity.lookup o.MATERIAL_ID = some regs →
              [vSafe].filter (fun w => decide (w.COUNTRY_CODE ∈ regs)) ≠ [] →
              ∃ v ∈ [vSafe].filter (fun w => decide (w.COUNTRY_CODE ∈ regs)),
                o.VENDOR_ID = v.VENDOR_ID) ∧
            (∃ v ∈ [vSafe], o.VENDOR_ID = v.VENDOR_ID) :=
  ⟨by simp, generate_purchase_orders_affinity rng0 rng0 [vSafe] 5 (by simp)⟩

theorem mem_mgp_exists {ms : List Material} {x y : String}
    (h : (x, y) ∈ matGroupPairs ms) : ∃ m ∈ ms, x = m.MATERIAL_ID := by
  rcases List.mem_map.mp h with ⟨m, hm, heq⟩
  injection heq with h1 h2
  exact ⟨m, hm, h1.symm⟩

/-- Claim C6: referential integrity — every purchase order's vendor and
material ids refer to records of the input sequences (and the material
is never the FIN material), and every BOM edge's parent and child ids
occur in the generated material master. -/
theorem generate_purchase_orders_referential_integrity (rm rp : RNG)
    (vendors : List Vendor) (numOrders : Int) (hv : vendors ≠ []) :
    ∃ orders r',
      generate_purchase_orders vendors ((generate_materials rm).1.1) numOrders rp
          = some (orders, r') ∧
        (∀ o ∈ orders,
          (∃ v ∈ vendors, o.VENDOR_ID = v.VENDOR_ID) ∧
          (∃ m ∈ (generate_materials rm).1.1,
            o.MATERIAL_ID = m.MATERIAL_ID ∧ m.MATERIAL_GROUP ≠ "FIN")) ∧
        (∀ e ∈ (generate_materials rm).1.2,
          (∃ m ∈ (generate_materials rm).1.1, e.PARENT_MATERIAL_ID = m.MATERIAL_ID) ∧
          (∃ m ∈ (generate_materials rm).1.1, e.CHILD_MATERIAL_ID = m.MATERIAL_ID)) := by
  obtain ⟨orders, r', hrun, hlen, hall⟩ := poLoop_spec vendors
    (((generate_materials rm).1.1).filter (fun m => m.MATERIAL_GROUP == "RAW"))
    (((generate_materials rm).1.1).filter (fun m => m.MATERIAL_GROUP == "SEMI"))
    hv (filter_raws_ne_nil rm) (filter_semis_ne_nil rm) numOrders.toNat 0 rp
  refine ⟨orders, r', hrun, ?_, ?_⟩
  · intro o ho
    obtain ⟨⟨m, hm, hom⟩, hvend, _⟩ := hall o ho
    refine ⟨hvend, m, ?_, hom, ?_⟩
    · rcases hm with hmr | hms
      · exact (List.mem_filter.mp hmr).1
      · exact (List.mem_filter.mp hms).1
    · rcases hm with hmr | hms
      · have := (List.mem_filter.mp hmr).2
        have hgr : m.MATERIAL_GROUP = "RAW" := by simpa using this
        rw [hgr]
        decide
      · have := (List.mem_filter.mp hms).2
        have hgr : m.MATERIAL_GROUP = "SEMI" := by simpa using this
        rw [hgr]
        decide
  · intro e he
    have hpair : (e.PARENT_MATERIAL_ID, e.CHILD_MATERIAL_ID) ∈ staticBP := by
      rw [← bp_eq rm]
      exact List.mem_map_of_mem _ he
    rcases edge_shape_static _ hpair with ⟨hp, hc⟩ | ⟨hp, hc⟩ <;>
      · rw [← mgp_eq rm] at hp hc
        exact ⟨mem_mgp_exists hp, mem_mgp_exists hc⟩

/-- Witness for C6. -/
theorem generate_purchase_orders_referential_integrity_witness :
    ([vSafe] : List Vendor) ≠ [] ∧
      ∃ orders r',
        generate_purchase_orders [vSafe] ((generate_materials rng0).1.1) 4 rng0
            = some (orders, r') ∧
          (∀ o ∈ orders,
            (∃ v ∈ [vSafe], o.VENDOR_ID = v.VENDOR_ID) ∧
            (∃ m ∈ (generate_materials rng0).1.1,
              o.MATERIAL_ID = m.MATERIAL_ID ∧ m.MATERIAL_GROUP ≠ "FIN")) ∧
          (∀ e ∈ (generate_materials rng0).1.2,
            (∃ m ∈ (generate_materials rng0).1.1, e.PARENT_MATERIAL_ID = m.MATERIAL_ID) ∧
            (∃ m ∈ (generate_materials rng0).1.1, e.CHILD_MATERIAL_ID = m.MATERIAL_ID)) :=
  ⟨by simp, generate_purchase_orders_referential_integrity rng0 rng0 [vSafe] 4 (by simp)⟩

/-! ### Trade data generator (hidden bottleneck injector) -/

/-- A Tier-2 shipper profile. -/
structure Tier2Profile where
  name : String
  country : String
  specialty : String
  concentration : ℚ
deriving DecidableEq

/-- The bottleneck shipper profile. -/
def vulcanProfile : Tier2Profile :=
  ⟨"Vulcan Materials Refiner", "CHL", "lithium", 60 / 100⟩

/-- The `tier2_suppliers` table. -/
def tier2Suppliers : List Tier2Profile :=
  [vulcanProfile,
   ⟨"Pacific Copper Mining", "CHL", "copper", 25 / 100⟩,
   ⟨"Congo Cobalt Mines", "COD", "cobalt", 40 / 100⟩,
   ⟨"Jiangxi Graphite Ltd", "CHN", "graphite", 30 / 100⟩,
   ⟨"Tokyo Chemical Works", "JPN", "electrolyte", 35 / 100⟩,
   ⟨"Bavaria Specialty Metals", "DEU", "nickel", 20 / 100⟩,
   ⟨"Queensland Minerals", "AUS", "lithium", 15 / 100⟩,
   ⟨"Atacama Mining Corp", "CHL", "lithium", 10 / 100⟩,
   ⟨"Shanghai Battery Materials", "CHN", "cathode", 25 / 100⟩,
   ⟨"Korean Precision Chemicals", "KOR", "separator", 30 / 100⟩]

/-- The `specialty_to_hs` table. -/
def specialtyToHs : List (String × List String) :=
  [("lithium", ["2836.91", "2825.20"]),
   ("copper", ["7408.11", "7409.11"]),
   ("cobalt", ["8106.00"]),
   ("graphite", ["3801.10"]),
   ("electrolyte", ["2826.19"]),
   ("nickel", ["7502.10"]),
   ("cathode", ["8507.90"]),
   ("separator", ["3920.10"])]

/-- The battery-manufacturer keyword list. -/
def batteryKeywords : List String :=
  ["battery", "energy", "sdi", "lg", "catl", "byd", "panasonic", "sk", "aesc"]

/-- `any(keyword in name.lower() for keyword in [...])`. -/
def isBatteryName (s : String) : Bool :=
  batteryKeywords.any (fun kw => hasSub (lowerStr s).data kw.data)

def isBatteryManufacturer (v : Vendor) : Bool := isBatteryName v.NAME

/-- The keyword-matched battery-manufacturer subset of a vendor list. -/
def batteryManufacturers (vendors : List Vendor) : List Vendor :=
  vendors.filter isBatteryManufacturer

/-- The East-Asian fallback subset, capped to 10. -/
def fallbackBM (vendors : List Vendor) : List Vendor :=
  (vendors.filter (fun v => decide (v.COUNTRY_CODE ∈ ["KOR", "JPN", "CHN"]))).take 10

/-- The consignee-bias pool actually used by the loop. -/
def effectiveBM (vendors : List Vendor) : List Vendor :=
  if (batteryManufacturers vendors).isEmpty then fallbackBM vendors
  else batteryManufacturers vendors

/-- The `ports` table. -/
def portsTable : List (String × String) :=
  [("CHL", "Port of Antofagasta"), ("COD", "Port of Dar es Salaam"),
   ("CHN", "Port of Shanghai"), ("JPN", "Port of Yokohama"), ("KOR", "Port of Busan"),
   ("DEU", "Port of Hamburg"), ("AUS", "Port of Fremantle"),
   ("USA", "Port of Los Angeles"), ("MEX", "Port of Manzanillo")]

/-- A trade data row.  `SHIP_DATE` is the day offset from the fixed
2023-01-01 base date. -/
structure TradeRecord where
  BOL_ID : String
  SHIPPER_NAME : String
  SHIPPER_COUNTRY : String
  CONSIGNEE_NAME : String
  CONSIGNEE_COUNTRY : String
  HS_CODE : String
  HS_DESCRIPTION : String
  SHIP_DATE : Nat
  WEIGHT_KG : Nat
  VALUE_USD : ℚ
  PORT_OF_ORIGIN : String
  PORT_OF_DESTINATION : String

/-- Consignee selection for one record: the bottleneck shipper forces
the battery-manufacturer pool with probability equal to its
concentration (unconditionally on specialty); other shippers force it
only when their specialty is "lithium"; every other path draws from the
full pool. -/
def tradeConsigneeChoice (vendors bm : List Vendor) (t2 : Tier2Profile) (r : RNG) :
    Option (Vendor × RNG) :=
  if t2.name = "Vulcan Materials Refiner" then
    let pq := randFloat r
    if pq.1 < t2.concentration ∧ ¬bm.isEmpty then choiceO bm pq.2
    else choiceO vendors pq.2
  else
    let pq := randFloat r
    if pq.1 < t2.concentration then
      if t2.specialty = "lithium" ∧ ¬bm.isEmpty then choiceO bm pq.2
      else choiceO vendors pq.2
    else choiceO vendors pq.2

/-- One iteration of the `generate_trade_data` loop. -/
def tradeStep (vendors bm : List Vendor) (bolId : Nat) (r : RNG) :
    Option (TradeRecord × RNG) :=
  match choiceO tier2Suppliers r with
  | none => none
  | some tr =>
    match tradeConsigneeChoice vendors bm tr.1 tr.2 with
    | none => none
    | some cr =>
      match choiceO ((specialtyToHs.lookup tr.1.specialty).getD ["8507.60"]) cr.2 with
      | none => none
      | some hr =>
        let psd := pyRandInt 0 365 hr.2
        let pw := pyRandInt 5000 50000 psd.2
        let pv := uniformQ 10 100 pw.2
        some ({ BOL_ID := "BL-" ++ String.mk (natChars bolId),
                SHIPPER_NAME := tr.1.name, SHIPPER_COUNTRY := tr.1.country,
                CONSIGNEE_NAME := cr.1.NAME, CONSIGNEE_COUNTRY := cr.1.COUNTRY_CODE,
                HS_CODE := hr.1,
                HS_DESCRIPTION := (HS_CODES.lookup hr.1).getD "Industrial Materials",
                SHIP_DATE := psd.1, WEIGHT_KG := pw.1,
                VALUE_USD := round2 ((pw.1 : ℚ) * pv.1),
                PORT_OF_ORIGIN := (portsTable.lookup tr.1.country).getD "Unknown Port",
                PORT_OF_DESTINATION :=
                  (portsTable.lookup cr.1.COUNTRY_CODE).getD "Unknown Port" }, pv.2)

def tradeLoop (vendors bm : List Vendor) :
    Nat → Nat → RNG → Option (List TradeRecord × RNG)
  | 0, _, r => some ([], r)
  | n + 1, bolId, r =>
    match tradeStep vendors bm bolId r with
    | none => none
    | some tr =>
      match tradeLoop vendors bm n (bolId + 1) tr.2 with
      | none => none
      | some rest => some (tr.1 :: rest.1, rest.2)

/-- `generate_trade_data(vendors, num_records)`. -/
def generate_trade_data (vendors : List Vendor) (numRecords : Int) (r : RNG) :
    Option (List TradeRecord × RNG) :=
  tradeLoop vendors (effectiveBM vendors) numRecords.toNat 88001 r

/-! ### Per-record properties of the trade data -/

theorem choiceO_spec {α : Type} (l : List α) (r : RNG) (h : l ≠ []) :
    ∃ a r', choiceO l r = some (a, r') ∧ a ∈ l := by
  cases hc : choiceO l r with
  | none => exact absurd hc (choiceO_ne_none l r h)
  | some p =>
    obtain ⟨a, r'⟩ := p
    exact ⟨a, r', rfl, choiceO_mem hc⟩

theorem effectiveBM_sub (vendors : List Vendor) :
    ∀ x ∈ effectiveBM vendors, x ∈ vendors := by
  intro x hx
  unfold effectiveBM at hx
  by_cases he : (batteryManufacturers vendors).isEmpty
  · rw [if_pos he] at hx
    exact (List.mem_filter.mp (List.mem_of_mem_take hx)).1
  · rw [if_neg he] at hx
    exact (List.mem_filter.mp hx).1

theorem tradeConsigneeChoice_spec (vendors bm : List Vendor) (t2 : Tier2Profile)
    (r : RNG) (hv : vendors ≠ []) (hsub : ∀ x ∈ bm, x ∈ vendors) :
    ∃ c r', tradeConsigneeChoice vendors bm t2 r = some (c, r') ∧ c ∈ vendors := by
  unfold tradeConsigneeChoice
  by_cases h1 : t2.name = "Vulcan Materials Refiner"
  · rw [if_pos h1]
    show ∃ c r', (if (randFloat r).1 < t2.concentration ∧ ¬bm.isEmpty
        then choiceO bm (randFloat r).2 else choiceO vendors (randFloat r).2)
          = some (c, r') ∧ c ∈ vendors
    by_cases h2 : (randFloat r).1 < t2.concentration ∧ ¬bm.isEmpty
    · rw [if_pos h2]
      have hbm : bm ≠ [] := by
        intro h
        rw [h] at h2
        exact h2.2 rfl
      obtain ⟨c, r', hc, hcm⟩ := choiceO_spec bm (randFloat r).2 hbm
      exact ⟨c, r', hc, hsub c hcm⟩
    · rw [if_neg h2]
      exact choiceO_spec vendors (randFloat r).2 hv
  · rw [if_neg h1]
    show ∃ c r', (if (randFloat r).1 < t2.concentration
        then if t2.specialty = "lithium" ∧ ¬bm.isEmpty
          then choiceO bm (randFloat r).2 else choiceO vendors (randFloat r).2
        else choiceO vendors (randFloat r).2) = some (c, r') ∧ c ∈ vendors
    by_cases h2 : (randFloat r).1 < t2.concentration
    · rw [if_pos h2]
      by_cases h3 : t2.specialty = "lithium" ∧ ¬bm.isEmpty
      · rw [if_pos h3]
        have hbm : bm ≠ [] := by
          intro h
          rw [h] at h3
          exact h3.2 rfl
        obtain ⟨c, r', hc, hcm⟩ := choiceO_spec bm (randFloat r).2 hbm
        exact ⟨c, r', hc, hsub c hcm⟩
      · rw [if_neg h3]
        exact choiceO_spec vendors (randFloat r).2 hv
    · rw [if_neg h2]
      exact choiceO_spec vendors (randFloat r).2 hv

theorem lookup_mem {β : Type} :
    ∀ (l : List (String × β)) (k : String) (v : β), l.lookup k = some v → (k, v) ∈ l := by
  intro l
  induction l with
  | nil => intro k v h; simp [List.lookup] at h
  | cons p t ih =>
    intro k v h
    obtain ⟨k', v'⟩ := p
    rw [List.lookup] at h
    cases hk : (k == k') with
    | true =>
      simp only [hk] at h
      have hkv : k = k' := by simpa using hk
      have hv : v' = v := by simpa using h
      subst hkv
      subst hv
      exact List.mem_cons_self _ _
    | false =>
      simp only [hk] at h
      exact List.mem_cons_of_mem _ (ih k v h)

theorem hsPool_ne_nil (s : String) :
    (specialtyToHs.lookup s).getD ["8507.60"] ≠ [] := by
  cases h : specialtyToHs.lookup s with
  | none => simp
  | some v =>
    have hm : (s, v) ∈ specialtyToHs := lookup_mem _ _ _ h
    have hall : ∀ pr ∈ specialtyToHs, pr.2 ≠ ([] : List String) := by decide
    simpa using hall _ hm

theorem tradeStep_spec (vendors bm : List Vendor) (bolId : Nat) (r : RNG)
    (hv : vendors ≠ []) (hsub : ∀ x ∈ bm, x ∈ vendors) :
    ∃ t r', tradeStep vendors bm bolId r = some (t, r') ∧
      (∃ v ∈ vendors, t.CONSIGNEE_NAME = v.NAME ∧ t.CONSIGNEE_COUNTRY = v.COUNTRY_CODE) ∧
      (∃ p ∈ tier2Suppliers, t.SHIPPER_NAME = p.name ∧ t.SHIPPER_COUNTRY = p.country) := by
  obtain ⟨t2p, r1, ht2, ht2m⟩ := choiceO_spec tier2Suppliers r (by simp [tier2Suppliers])
  obtain ⟨c, r2, hcc, hcm⟩ := tradeConsigneeChoice_spec vendors bm t2p r1 hv hsub
  obtain ⟨hs, r3, hh, _⟩ :=
    choiceO_spec ((specialtyToHs.lookup t2p.specialty).getD ["8507.60"]) r2
      (hsPool_ne_nil t2p.specialty)
  have hrun : ∃ t r', tradeStep vendors bm bolId r = some (t, r') ∧
      t.CONSIGNEE_NAME = c.NAME ∧ t.CONSIGNEE_COUNTRY = c.COUNTRY_CODE ∧
      t.SHIPPER_NAME = t2p.name ∧ t.SHIPPER_COUNTRY = t2p.country := by
    have ht2' : choiceO tier2Suppliers r = some ⟨t2p, r1⟩ := ht2
    have hcc' : tradeConsigneeChoice vendors bm t2p r1 = some ⟨c, r2⟩ := hcc
    have hh' : choiceO ((specialtyToHs.lookup t2p.specialty).getD ["8507.60"]) r2
        = some ⟨hs, r3⟩ := hh
    simp only [tradeStep, ht2', hcc', hh']
    exact ⟨_, _, rfl, rfl, rfl, rfl, rfl⟩
  obtain ⟨t, r', hrun', h1, h2, h3, h4⟩ := hrun
  exact ⟨t, r', hrun', ⟨c, hcm, h1, h2⟩, ⟨t2p, ht2m, h3, h4⟩⟩

theorem tradeLoop_spec (vendors bm : List Vendor)
    (hv : vendors ≠ []) (hsub : ∀ x ∈ bm, x ∈ vendors) :
    ∀ (n bolId : Nat) (r : RNG), ∃ recs r',
      tradeLoop vendors bm n bolId r = some (recs, r') ∧ recs.length = n ∧
        ∀ t ∈ recs,
          (∃ v ∈ vendors, t.CONSIGNEE_NAME = v.NAME ∧
            t.CONSIGNEE_COUNTRY = v.COUNTRY_CODE) ∧
          (∃ p ∈ tier2Suppliers, t.SHIPPER_NAME = p.name ∧
            t.SHIPPER_COUNTRY = p.country) := by
  intro n
  induction n with
  | zero => intro bolId r; exact ⟨[], r, rfl, rfl, by simp⟩
  | succ k ih =>
    intro bolId r
    obtain ⟨t, r1, ht, htok⟩ := tradeStep_spec vendors bm bolId r hv hsub
    obtain ⟨rest, r2, hrest, hlen, hall⟩ := ih (bolId + 1) r1
    refine ⟨t :: rest, r2, ?_, by simp [hlen], ?_⟩
    · simp only [tradeLoop, ht, hrest]
    · intro x hx
      rcases List.mem_cons.mp hx with rfl | hxr
      · exact htok
      · exact hall x hxr


/-- Claim C10: every generated trade record's consignee name and country
are the `NAME` and `COUNTRY_CODE` of a single vendor record of the input
list, and its shipper name and country come from one of the ten fixed
Tier-2 shipper profiles. -/
theorem generate_trade_data_linked (vendors : List Vendor) (numRecords : Int)
    (r : RNG) (hv : vendors ≠ []) :
    ∃ recs r', generate_trade_data vendors numRecords r = some (recs, r') ∧
      recs.length = numRecords.toNat ∧
      ∀ t ∈ recs,
        (∃ v ∈ vendors, t.CONSIGNEE_NAME = v.NAME ∧
          t.CONSIGNEE_COUNTRY = v.COUNTRY_CODE) ∧
        (∃ p ∈ tier2Suppliers, t.SHIPPER_NAME = p.name ∧
          t.SHIPPER_COUNTRY = p.country) :=
  tradeLoop_spec vendors (effectiveBM vendors) hv (effectiveBM_sub vendors)
    numRecords.toNat 88001 r

/-- Witness for C10. -/
theorem generate_trade_data_linked_witness :
    ([vSafe] : List Vendor) ≠ [] ∧
      ∃ recs r', generate_trade_data [vSafe] 7 rng0 = some (recs, r') ∧
        recs.length = (7 : Int).toNat ∧
        ∀ t ∈ recs,
          (∃ v ∈ [vSafe], t.CONSIGNEE_NAME = v.NAME ∧
            t.CONSIGNEE_COUNTRY = v.COUNTRY_CODE) ∧
          (∃ p ∈ tier2Suppliers, t.SHIPPER_NAME = p.name ∧
            t.SHIPPER_COUNTRY = p.country) :=
  ⟨by simp, generate_trade_data_linked [vSafe] 7 rng0 (by simp)⟩

/-- Claim C8: on a vendor list with no battery-keyword match and no
vendor in the East-Asian fallback region set, `generate_trade_data`
still succeeds, returns exactly `count` records, and draws every
consignee from the full, unfiltered vendor pool. -/
theorem generate_trade_data_no_bm_fallback (vendors : List Vendor) (numRecords : Int)
    (r : RNG) (hv : vendors ≠ [])
    (hbm : batteryManufacturers vendors = [])
    (hfb : vendors.filter (fun v => decide (v.COUNTRY_CODE ∈ ["KOR", "JPN", "CHN"]))
      = []) :
    effectiveBM vendors = [] ∧
      ∃ recs r', generate_trade_data vendors numRecords r = some (recs, r') ∧
        recs.length = numRecords.toNat ∧
        ∀ t ∈ recs, ∃ v ∈ vendors, t.CONSIGNEE_NAME = v.NAME ∧
          t.CONSIGNEE_COUNTRY = v.COUNTRY_CODE := by
  refine ⟨?_, ?_⟩
  · unfold effectiveBM fallbackBM
    rw [hbm, hfb]
    rfl
  · obtain ⟨recs, r', hrun, hlen, hall⟩ := tradeLoop_spec vendors (effectiveBM vendors)
      hv (effectiveBM_sub vendors) numRecords.toNat 88001 r
    exact ⟨recs, r', hrun, hlen, fun t ht => (hall t ht).1⟩

/-- Witness for C8. -/
theorem generate_trade_data_no_bm_fallback_witness :
    (([vSafe] : List Vendor) ≠ [] ∧ batteryManufacturers [vSafe] = [] ∧
        [vSafe].filter (fun v => decide (v.COUNTRY_CODE ∈ ["KOR", "JPN", "CHN"])) = []) ∧
      effectiveBM [vSafe] = [] ∧
      ∃ recs r', generate_trade_data [vSafe] 6 rng0 = some (recs, r') ∧
        recs.length = (6 : Int).toNat ∧
        ∀ t ∈ recs, ∃ v ∈ [vSafe], t.CONSIGNEE_NAME = v.NAME ∧
          t.CONSIGNEE_COUNTRY = v.COUNTRY_CODE :=
  ⟨⟨by simp, by decide, by decide⟩,
    generate_trade_data_no_bm_fallback [vSafe] 6 rng0 (by simp) (by decide) (by decide)⟩

/-! ### Negative counts (claim C7) -/

/-- Counterexample for C7 as stated: a negative count does not fail
fast — each generator silently succeeds with an empty output. -/
theorem negative_count_counterexample :
    (generate_vendors (-1) rng0).1 = [] ∧
      generate_purchase_orders [vSafe] ((generate_materials rng0).1.1) (-1) rng0
        = some ([], rng0) ∧
      generate_trade_data [vSafe] (-1) rng0 = some ([], rng0) :=
  ⟨rfl, rfl, rfl⟩

/-- Claim C7 (amended): a negative count is silently treated as zero —
each generator returns successfully with an empty output instead of
raising. -/
theorem negative_count_yields_empty (n : Int) (hn : n < 0) :
    ∀ (r : RNG) (vendors : List Vendor) (materials : List Material),
      (generate_vendors n r).1 = [] ∧
        generate_purchase_orders vendors materials n r = some ([], r) ∧
        generate_trade_data vendors n r = some ([], r) := by
  have h0 : n.toNat = 0 := Int.toNat_of_nonpos (le_of_lt hn)
  intro r vendors materials
  refine ⟨?_, ?_, ?_⟩
  · rw [generate_vendors, h0]
    rfl
  · unfold generate_purchase_orders
    rw [h0]
    rfl
  · unfold generate_trade_data
    rw [h0]
    rfl

/-- Witness for the amended C7. -/
theorem negative_count_yields_empty_witness :
    (-5 : Int) < 0 ∧
      ((generate_vendors (-5) rng0).1 = [] ∧
        generate_purchase_orders [vSafe] ((generate_materials rng0).1.1) (-5) rng0
          = some ([], rng0) ∧
        generate_trade_data [vSafe] (-5) rng0 = some ([], rng0)) :=
  ⟨by norm_num,
    negative_count_yields_empty (-5) (by norm_num) rng0 [vSafe]
      ((generate_materials rng0).1.1)⟩

/-! ### Region table and the seeded pipeline (claim C9) -/

/-- A row of the regions table. -/
structure RegionRow where
  REGION_CODE : String
  REGION_NAME : String
  BASE_RISK_SCORE : ℚ
  GEOPOLITICAL_RISK : ℚ
  NATURAL_DISASTER_RISK : ℚ
  INFRASTRUCTURE_SCORE : ℚ

/-- `generate_regions()`: purely tabular, no randomness. -/
def generate_regions : List RegionRow :=
  REGION_RISKS.map (fun pr =>
    { REGION_CODE := pr.1,
      REGION_NAME := ((REGIONS.lookup pr.1).map (fun s => s.displayName)).getD "",
      BASE_RISK_SCORE := pr.2.base,
      GEOPOLITICAL_RISK := pr.2.geopolitical,
      NATURAL_DISASTER_RISK := pr.2.natural,
      INFRASTRUCTURE_SCORE := pr.2.infrastructure })

/-- The full generation pipeline of `main()`: seed the RNG (the seed
determines the draw stream), then generate vendors, materials and BOM,
purchase orders, trade data, and regions, in that order from the single
threaded RNG state. -/
def runPipeline (stream : Nat → Nat) (numVendors numOrders numTrade : Int) :
    Option (List Vendor × List Material × List BomEdge × List PurchaseOrder ×
      List TradeRecord × List RegionRow) :=
  let r0 : RNG := ⟨stream, 0⟩
  let pv := generate_vendors numVendors r0
  let pm := generate_materials pv.2
  match generate_purchase_orders pv.1 pm.1.1 numOrders pm.2 with
  | none => none
  | some po =>
    match generate_trade_data pv.1 numTrade po.2 with
    | none => none
    | some td => some (pv.1, pm.1.1, pm.1.2, po.1, td.1, generate_regions)

/-- Claim C9: generation is deterministic given the seed — two runs of
the full pipeline from the same seeded draw stream, with the same
parameters, produce identical output sequences (same counts, same ids,
same field values in the same order). -/
theorem runPipeline_deterministic (s1 s2 : Nat → Nat) (nv no nt : Int)
    (h : s1 = s2) :
    runPipeline s1 nv no nt = runPipeline s2 nv no nt := by
  rw [h]

/-- Witness for C9. -/
theorem runPipeline_deterministic_witness :
    (fun _ : Nat => (0 : Nat)) = (fun _ : Nat => (0 : Nat)) ∧
      runPipeline (fun _ => 0) 50 120 150 = runPipeline (fun _ => 0) 50 120 150 :=
  ⟨rfl, runPipeline_deterministic _ _ 50 120 150 rfl⟩

/-! ### Per-record distribution of the bottleneck pattern (claims C1, C2) -/

/-- The shipper of each record is `random.choice(tier2_suppliers)`:
given the raw draw `k`, it is the profile at index `k mod 10`.  This
ties the executable step to the uniform outcome space used below. -/
theorem tradeStep_shipper (vendors bm : List Vendor) (bolId : Nat) (r : RNG)
    {t : TradeRecord} {r' : RNG} (h : tradeStep vendors bm bolId r = some (t, r')) :
    t.SHIPPER_NAME
      = (tier2Suppliers.getD ((RNG.next r).1 % tier2Suppliers.length)
          vulcanProfile).name := by
  have ht2 : choiceO tier2Suppliers r
      = some (tier2Suppliers.getD ((RNG.next r).1 % tier2Suppliers.length)
          vulcanProfile, (RNG.next r).2) := rfl
  rw [tradeStep, ht2] at h
  set t2v := tier2Suppliers.getD ((RNG.next r).1 % tier2Suppliers.length) vulcanProfile
  cases hcc : tradeConsigneeChoice vendors bm t2v (RNG.next r).2 with
  | none => simp [hcc] at h
  | some cr =>
    simp only [hcc] at h
    cases hh : choiceO ((specialtyToHs.lookup t2v.specialty).getD ["8507.60"]) cr.2 with
    | none => simp [hh] at h
    | some hr =>
      simp only [hh] at h
      have := congrArg (fun p => p.1.SHIPPER_NAME) (Option.some.inj h)
      simpa using this.symm

/-- Probability that one record's `random.choice(tier2_suppliers)` draw
selects a profile with the given shipper name (uniform over indices). -/
def shipperChoiceProb (nm : String) : ℚ :=
  (((List.range tier2Suppliers.length).filter
      (fun k => decide ((tier2Suppliers.getD k vulcanProfile).name = nm))).length : ℚ)
    / (tier2Suppliers.length : ℚ)

theorem shipper_filter_eval :
    (List.range tier2Suppliers.length).filter
      (fun k => decide ((tier2Suppliers.getD k vulcanProfile).name
        = "Vulcan Materials Refiner")) = [0] := by decide

theorem shipper_prob_eval :
    shipperChoiceProb "Vulcan Materials Refiner" = 1 / 10 := by
  unfold shipperChoiceProb
  rw [shipper_filter_eval]
  show ((1 : ℕ) : ℚ) / ((10 : ℕ) : ℚ) = 1 / 10
  norm_num

/-- Counterexample for C2: the per-record probability that the shipper
is the bottleneck shipper is 1/10 (the shipper is drawn uniformly among
ten profiles), which is not within ±0.1 of the 0.60 concentration
factor the claim asserts for this ratio. -/
theorem shipper_marginal_counterexample :
    shipperChoiceProb "Vulcan Materials Refiner" = 1 / 10 ∧
      ¬ |shipperChoiceProb "Vulcan Materials Refiner" - 60 / 100| ≤ 1 / 10 := by
  refine ⟨shipper_prob_eval, ?_⟩
  rw [shipper_prob_eval]
  intro h
  have habs : |(1 : ℚ) / 10 - 60 / 100| = 1 / 2 := by
    rw [show (1 : ℚ) / 10 - 60 / 100 = -(1 / 2) by norm_num, abs_neg,
      abs_of_nonneg (by norm_num : (0 : ℚ) ≤ 1 / 2)]
  rw [habs] at h
  norm_num at h

/-- Claim C2 (amended): the expected fraction of trade records whose
shipper equals the bottleneck shipper's name is 1/10 — the shipper is
drawn uniformly among the ten Tier-2 profiles — not the concentration
factor 0.60, which instead governs the consignee bias of the bottleneck
shipper's own records. -/
theorem shipper_marginal_is_tenth :
    shipperChoiceProb "Vulcan Materials Refiner" = 1 / 10 := shipper_prob_eval

/-- Placeholder vendor for out-of-range list indexing (never reached on
the enumerated outcome space). -/
def defaultVendor : Vendor := ⟨"", "", "", "", "", 1, 0⟩

/-- Outcome of the bottleneck shipper's consignee selection as a
function of the uniform draws: `coin` is the hundredths draw of
`random.random()`, `j` the uniform index into the battery-manufacturer
list, `v` the uniform index into the full vendor list (mirrors the
`Vulcan Materials Refiner` branch of the source). -/
def vulcanConsignee (vendors : List Vendor) (coin j v : Nat) : Vendor :=
  let bm := batteryManufacturers vendors
  if ((coin : ℕ) : ℚ) / 100 < vulcanProfile.concentration ∧ ¬bm.isEmpty
  then bm.getD j defaultVendor
  else vendors.getD v defaultVendor

/-- Number of outcomes, over the uniform draw space of one
bottleneck-shipper record, in which the consignee is a battery
manufacturer. -/
def vulcanBMHits (vendors : List Vendor) : ℕ :=
  ((List.range 100).map (fun coin =>
    ((List.range (batteryManufacturers vendors).length).map (fun j =>
      ((List.range vendors.length).map (fun v =>
        if isBatteryManufacturer (vulcanConsignee vendors coin j v) then 1
        else 0)).sum)).sum)).sum

/-- Probability that a bottleneck-shipper record's consignee is a
battery manufacturer. -/
def vulcanBMFraction (vendors : List Vendor) : ℚ :=
  (vulcanBMHits vendors : ℚ)
    / (100 * ((batteryManufacturers vendors).length : ℚ) * (vendors.length : ℚ))

theorem coinLt_iff (coin : ℕ) :
    (((coin : ℕ) : ℚ) / 100 < vulcanProfile.concentration) ↔ coin < 60 := by
  show ((coin : ℕ) : ℚ) / 100 < 60 / 100 ↔ coin < 60
  rw [div_lt_div_iff₀ (by norm_num) (by norm_num)]
  rw [mul_lt_mul_right (by norm_num : (0 : ℚ) < 100)]
  exact_mod_cast Iff.rfl

theorem vulcan_inner_sum (vendors : List Vendor)
    (hbm : batteryManufacturers vendors ≠ []) (coin : ℕ) :
    ((List.range (batteryManufacturers vendors).length).map (fun j =>
      ((List.range vendors.length).map (fun v =>
        if isBatteryManufacturer (vulcanConsignee vendors coin j v) then 1
        else 0)).sum)).sum
    = if coin < 60 then (batteryManufacturers vendors).length * vendors.length
      else (batteryManufacturers vendors).length
        * (batteryManufacturers vendors).length := by
  by_cases h : coin < 60
  · rw [if_pos h]
    have hcond : ((coin : ℕ) : ℚ) / 100 < vulcanProfile.concentration ∧
        ¬(batteryManufacturers vendors).isEmpty := by
      refine ⟨(coinLt_iff coin).mpr h, ?_⟩
      rw [List.isEmpty_iff]
      exact hbm
    have hA : ∀ j ∈ List.range (batteryManufacturers vendors).length,
        ((List.range vendors.length).map (fun v =>
          if isBatteryManufacturer (vulcanConsignee vendors coin j v) then 1
          else 0)).sum = vendors.length := by
      intro j hjr
      have hj := List.mem_range.mp hjr
      have hcons : ∀ v : Nat, vulcanConsignee vendors coin j v
          = (batteryManufacturers vendors).getD j defaultVendor := by
        intro v
        unfold vulcanConsignee
        rw [if_pos hcond]
      have hbmmem : (batteryManufacturers vendors).getD j defaultVendor
          ∈ batteryManufacturers vendors := getD_mem_of_lt _ j _ hj
      have hbmtrue : isBatteryManufacturer
          ((batteryManufacturers vendors).getD j defaultVendor) = true :=
        (List.mem_filter.mp hbmmem).2
      have hone : ∀ v ∈ List.range vendors.length,
          (if isBatteryManufacturer (vulcanConsignee vendors coin j v) then (1 : ℕ)
            else 0) = 1 := by
        intro v _
        rw [hcons v, hbmtrue]
        rfl
      rw [List.map_congr_left hone, sum_map_const_range, Nat.mul_one]
    rw [List.map_congr_left hA, sum_map_const_range]
  · rw [if_neg h]
    have hncond : ¬(((coin : ℕ) : ℚ) / 100 < vulcanProfile.concentration ∧
        ¬(batteryManufacturers vendors).isEmpty) := by
      intro hc
      exact h ((coinLt_iff coin).mp hc.1)
    have hB : ∀ j ∈ List.range (batteryManufacturers vendors).length,
        ((List.range vendors.length).map (fun v =>
          if isBatteryManufacturer (vulcanConsignee vendors coin j v) then 1
          else 0)).sum = (batteryManufacturers vendors).length := by
      intro j _
      have hcons : ∀ v : Nat, vulcanConsignee vendors coin j v
          = vendors.getD v defaultVendor := by
        intro v
        unfold vulcanConsignee
        rw [if_neg hncond]
      have heach : ∀ v ∈ List.range vendors.length,
          (if isBatteryManufacturer (vulcanConsignee vendors coin j v) then (1 : ℕ)
            else 0)
          = (if isBatteryManufacturer (vendors.getD v defaultVendor) then (1 : ℕ)
            else 0) := by
        intro v _
        rw [hcons v]
      rw [List.map_congr_left heach, sum_range_if_getD vendors isBatteryManufacturer
        defaultVendor, List.countP_eq_length_filter]
      rfl
    rw [List.map_congr_left hB, sum_map_const_range]

theorem vulcanBMHits_formula (vendors : List Vendor)
    (hbm : batteryManufacturers vendors ≠ []) :
    vulcanBMHits vendors
      = 60 * ((batteryManufacturers vendors).length * vendors.length)
        + 40 * ((batteryManufacturers vendors).length
            * (batteryManufacturers vendors).length) := by
  unfold vulcanBMHits
  rw [List.map_congr_left (fun coin _ => vulcan_inner_sum vendors hbm coin)]
  exact sum_range_split 60 40 _ _

theorem vendors_ne_nil_of_bm {vendors : List Vendor}
    (hbm : batteryManufacturers vendors ≠ []) : vendors ≠ [] := by
  intro h
  rw [h] at hbm
  exact hbm rfl

theorem vulcanBMFraction_formula (vendors : List Vendor)
    (hbm : batteryManufacturers vendors ≠ []) :
    vulcanBMFraction vendors
      = 60 / 100 + (40 / 100) * ((batteryManufacturers vendors).length : ℚ)
          / (vendors.length : ℚ) := by
  have hm : (0 : ℚ) < ((batteryManufacturers vendors).length : ℚ) := by
    have := List.length_pos.mpr hbm
    exact_mod_cast this
  have hn : (0 : ℚ) < ((vendors.length : ℕ) : ℚ) := by
    have := List.length_pos.mpr (vendors_ne_nil_of_bm hbm)
    exact_mod_cast this
  unfold vulcanBMFraction
  rw [vulcanBMHits_formula vendors hbm]
  push_cast
  field_simp
  ring

/-- Counterexample for C1 as stated: a vendor list consisting of a
single battery manufacturer has a non-empty battery-manufacturer subset,
yet the probability that a bottleneck-shipper record's consignee is a
battery manufacturer is 1, far outside ±0.1 of 0.60 (the fallback draw
also lands on battery manufacturers when they dominate the pool). -/
theorem vulcan_concentration_counterexample :
    batteryManufacturers [⟨"V80001", "BYD Battery", "CHN", "Shenzhen",
        "+86-555-000-0000", 1, 1 / 2⟩] ≠ [] ∧
      ¬ |vulcanBMFraction [⟨"V80001", "BYD Battery", "CHN", "Shenzhen",
          "+86-555-000-0000", 1, 1 / 2⟩] - 60 / 100| ≤ 1 / 10 := by
  constructor
  · decide
  · intro h
    rw [vulcanBMFraction_formula _ (by decide),
      show (batteryManufacturers [⟨"V80001", "BYD Battery", "CHN", "Shenzhen",
        "+86-555-000-0000", 1, 1 / 2⟩]).length = 1 from by decide] at h
    norm_num at h
    rw [abs_of_nonneg (by norm_num)] at h
    norm_num at h

/-- Claim C1 (amended): for every vendor list whose battery-manufacturer
subset is non-empty and comprises at most a quarter of the vendors, the
probability that a bottleneck-shipper record's consignee is a battery
manufacturer lies within ±0.1 of the configured concentration factor
0.60; in general that probability equals 0.60 + 0.40·ρ for ρ the
battery-manufacturer density, so the bound fails exactly when ρ > 1/4. -/
theorem vulcan_concentration_amended (vendors : List Vendor)
    (hbm : batteryManufacturers vendors ≠ [])
    (hq : 4 * (batteryManufacturers vendors).length ≤ vendors.length) :
    |vulcanBMFraction vendors - 60 / 100| ≤ 1 / 10 := by
  have hn : (0 : ℚ) < ((vendors.length : ℕ) : ℚ) := by
    have := List.length_pos.mpr (vendors_ne_nil_of_bm hbm)
    exact_mod_cast this
  rw [vulcanBMFraction_formula vendors hbm, add_sub_cancel_left]
  have hnonneg : (0 : ℚ) ≤ (40 / 100) * ((batteryManufacturers vendors).length : ℚ)
      / ((vendors.length : ℕ) : ℚ) := by positivity
  rw [abs_of_nonneg hnonneg, div_le_iff₀ hn]
  have hqc : 4 * ((batteryManufacturers vendors).length : ℚ)
      ≤ ((vendors.length : ℕ) : ℚ) := by exact_mod_cast hq
  linarith

/-- Witness for the amended C1: one battery manufacturer among four
vendors (density exactly 1/4). -/
theorem vulcan_concentration_amended_witness :
    (batteryManufacturers [⟨"V80001", "BYD Battery", "CHN", "Shenzhen",
          "+86-555-000-0000", 1, 1 / 2⟩, vSafe,
        ⟨"V80002", "Umicore SA", "DEU", "Munich", "+49-555-000-0000", 1, 1 / 2⟩,
        ⟨"V80003", "First Quantum", "USA", "Phoenix", "+1-555-000-0001", 1, 1 / 2⟩]
        ≠ [] ∧
      4 * (batteryManufacturers [⟨"V80001", "BYD Battery", "CHN", "Shenzhen",
          "+86-555-000-0000", 1, 1 / 2⟩, vSafe,
        ⟨"V80002", "Umicore SA", "DEU", "Munich", "+49-555-000-0000", 1, 1 / 2⟩,
        ⟨"V80003", "First Quantum", "USA", "Phoenix", "+1-555-000-0001", 1,
          1 / 2⟩]).length
        ≤ ([⟨"V80001", "BYD Battery", "CHN", "Shenzhen", "+86-555-000-0000", 1,
          1 / 2⟩, vSafe,
        ⟨"V80002", "Umicore SA", "DEU", "Munich", "+49-555-000-0000", 1, 1 / 2⟩,
        ⟨"V80003", "First Quantum", "USA", "Phoenix", "+1-555-000-0001", 1,
          1 / 2⟩] : List Vendor).length) ∧
      |vulcanBMFraction [⟨"V80001", "BYD Battery", "CHN", "Shenzhen",
          "+86-555-000-0000", 1, 1 / 2⟩, vSafe,
        ⟨"V80002", "Umicore SA", "DEU", "Munich", "+49-555-000-0000", 1, 1 / 2⟩,
        ⟨"V80003", "First Quantum", "USA", "Phoenix", "+1-555-000-0001", 1, 1 / 2⟩]
        - 60 / 100| ≤ 1 / 10 :=
  ⟨⟨by decide, by decide⟩, vulcan_concentration_amended _ (by decide) (by decide)⟩
